import Mathlib

/-!
Verification of the Maven build-descriptor resolution engine of this
repository: the descriptor parser and project detector (`java.go`), the
Spring Boot dependency classifier (`detectAzureDependenciesByAnalyzingSpringBootProject`
and its helpers), the configuration-overlay loader (`readProperties`), and the
effective-POM synthesizer and placeholder substitutor (modelled from the spec
where the source file is not available).

Go strings are modelled as Lean `String` values; Go `map[string]string` values
are modelled either by their lookup function (`PropsMap`) where only lookups
matter, or by an explicit entry list `List (String × String)` where the code
iterates over the map (the list order stands for the run's iteration order,
which Go leaves unspecified).
-/

/-- Character-list test modelling Go `strings.HasPrefix` (first list starts the second). -/
def charsStart : List Char → List Char → Bool
  | [], _ => true
  | _ :: _, [] => false
  | a :: as, b :: bs => a == b && charsStart as bs

/-- Models Go `strings.HasPrefix s pre`. -/
def strStartsWith (s pre : String) : Bool :=
  charsStart pre.data s.data

/-- Models Go `strings.HasSuffix s suf`. -/
def strEndsWith (s suf : String) : Bool :=
  charsStart suf.data.reverse s.data.reverse

/-- Character-list test for an infix occurrence, modelling Go `strings.Contains`. -/
def charsInfix (needle hay : List Char) : Bool :=
  match hay with
  | [] => charsStart needle []
  | _ :: rest => charsStart needle hay || charsInfix needle rest

/-- Models Go `strings.Contains s sub`. -/
def strContainsSub (s sub : String) : Bool :=
  charsInfix sub.data s.data

/-- ASCII lower-casing of one character, modelling `strings.ToLower` on ASCII names. -/
def charToLower (c : Char) : Char :=
  if 65 ≤ c.toNat ∧ c.toNat ≤ 90 then Char.ofNat (c.toNat + 32) else c

/-- Models Go `strings.ToLower` (ASCII range, which is all the callers use). -/
def strToLower (s : String) : String :=
  String.mk (s.data.map charToLower)

/-- Lexicographic comparison of character lists by code point, modelling
`strings.Compare a b <= 0` (byte-wise comparison agrees with code-point order
on the ASCII constants this repository compares). -/
def charsLe : List Char → List Char → Bool
  | [], _ => true
  | _ :: _, [] => false
  | a :: as, b :: bs =>
    if a.toNat < b.toNat then true
    else if b.toNat < a.toNat then false
    else charsLe as bs

/-- String comparison used by the `slices.SortedFunc` calls. -/
def strLe (a b : String) : Bool :=
  charsLe a.data b.data

/-- Insertion into a sorted list of strings. -/
def insertSortedStr (x : String) : List String → List String
  | [] => [x]
  | y :: ys => if strLe x y then x :: y :: ys else y :: insertSortedStr x ys

/-- Insertion sort by `strLe`, modelling `slices.SortedFunc(maps.Keys m, strings.Compare)`:
the sorted sequence of the distinct keys of the accumulated map. -/
def sortStrings : List String → List String
  | [] => []
  | x :: xs => insertSortedStr x (sortStrings xs)

/-- First-match lookup in an entry list; with distinct keys this is exactly
the Go map lookup `m[k]`. -/
def lookupEntries : List (String × String) → String → Option String
  | [], _ => none
  | e :: rest, k => if e.1 = k then some e.2 else lookupEntries rest k

/-- Go map lookup returning the zero value `""` for an absent key. -/
def lookupEntriesD (es : List (String × String)) (k : String) : String :=
  (lookupEntries es k).getD ""

/-- Models `filepath.Join` for the clean relative second components used in
this package. -/
def pJoin (a b : String) : String :=
  a ++ "/" ++ b

/-- Splits a character list at the first occurrence of `ch`, returning the
part before and the part after it. -/
def splitAtChar (ch : Char) : List Char → Option (List Char × List Char)
  | [] => none
  | c :: rest =>
    if c = ch then some ([], rest)
    else
      match splitAtChar ch rest with
      | some (a, b) => some (c :: a, b)
      | none => none

theorem splitAtChar_eq (ch : Char) (l : List Char) :
    ∀ nm after, splitAtChar ch l = some (nm, after) →
      l = nm ++ ch :: after ∧ ch ∉ nm := by
  induction l with
  | nil => intro nm after h; simp [splitAtChar] at h
  | cons c rest ih =>
    intro nm after h
    by_cases hc : c = ch
    · subst hc
      simp [splitAtChar] at h
      obtain ⟨h1, h2⟩ := h
      subst h1; subst h2
      simp
    · simp only [splitAtChar, if_neg hc] at h
      cases hsplit : splitAtChar ch rest with
      | none => rw [hsplit] at h; exact absurd h (by simp)
      | some p =>
        obtain ⟨a, b⟩ := p
        rw [hsplit] at h
        simp only [Option.some.injEq, Prod.mk.injEq] at h
        obtain ⟨h1, h2⟩ := h
        subst h2
        obtain ⟨hx, hy⟩ := ih a b hsplit
        subst h1
        refine ⟨by simp [hx], ?_⟩
        simp only [List.mem_cons, not_or]
        exact ⟨fun hcc => hc hcc.symm, hy⟩

theorem splitAtChar_length (ch : Char) (l nm after : List Char)
    (h : splitAtChar ch l = some (nm, after)) :
    after.length < l.length := by
  obtain ⟨heq, -⟩ := splitAtChar_eq ch l nm after h
  subst heq
  simp
  omega

theorem splitAtChar_append (ch : Char) (nm after : List Char) (h : ch ∉ nm) :
    splitAtChar ch (nm ++ ch :: after) = some (nm, after) := by
  induction nm with
  | nil => simp [splitAtChar]
  | cons c rest ih =>
    simp only [List.mem_cons, not_or] at h
    obtain ⟨h1, h2⟩ := h
    simp only [List.cons_append, splitAtChar]
    rw [if_neg (fun hc => h1 hc.symm)]
    simp only [List.append_eq]
    rw [ih h2]

/-- Parent POM reference (`parent` in `java.go`). -/
structure parent where
  GroupId : String := ""
  ArtifactId : String := ""
  Version : String := ""
deriving DecidableEq

/-- A single Maven dependency (`dependency` in `java.go`). -/
structure dependency where
  GroupId : String := ""
  ArtifactId : String := ""
  Version : String := ""
  Scope : String := ""
deriving DecidableEq

/-- A build plugin (`plugin` in `java.go`). -/
structure plugin where
  GroupId : String := ""
  ArtifactId : String := ""
  Version : String := ""
deriving DecidableEq

/-- Build configuration holding the plugin list (`build` in `java.go`). -/
structure build where
  Plugins : List plugin := []
deriving DecidableEq

/-- Managed dependency block (`dependencyManagement` in `java.go`). -/
structure dependencyManagement where
  Dependencies : List dependency := []
deriving DecidableEq

/-- Top-level structure of a parsed Maven POM file (`mavenProject` in `java.go`). -/
structure mavenProject where
  Parent : parent := {}
  Modules : List String := []
  Dependencies : List dependency := []
  DependencyManagement : dependencyManagement := {}
  Build : build := {}
  path : String := ""
deriving DecidableEq

/-- Modelled from the spec: `DatabaseDep` is a string-typed tag whose constants
live in a source file that is not among the provided sources; only the tags'
distinctness and their sort order matter to the engine. -/
def DbPostgres : String := "postgres"

/-- Modelled from the spec: the MySQL database tag. -/
def DbMySql : String := "mysql"

/-- Modelled from the spec: the Redis database tag. -/
def DbRedis : String := "redis"

/-- Modelled from the spec: the MongoDB database tag. -/
def DbMongo : String := "mongo"

/-- Modelled from the spec: the Cosmos database tag. -/
def DbCosmos : String := "cosmos"

/-- Modelled from the spec: sentinel for an undetected Spring Boot version
(`UnknownSpringBootVersion`, declared outside the provided sources). -/
def UnknownSpringBootVersion : String := "unknown"

/-- Inferred Azure resource requirement; models the `AzureDep` implementations
`AzureDepServiceBus`, `AzureDepEventHubs` and `AzureDepStorageAccount`. -/
inductive AzureDep where
  | serviceBus (Queues : List String) (IsJms : Bool)
  | eventHubs (Names : List String) (UseKafka : Bool) (SpringBootVersion : String)
  | storageAccount (ContainerNames : List String)
deriving DecidableEq

/-- Framework dependency tag appended to `Project.Dependencies` (`SpringFrontend`). -/
inductive ProjectDependency where
  | springFrontend
deriving DecidableEq

/-- Metadata flags filled in by `detectMetadata`; the
`DatabaseNameInPropertySpringDatasourceUrl` map is modelled as an entry list
keyed by the database tag (nil and empty Go maps are identified). -/
structure ProjectMetadata where
  DatabaseNameInPropertySpringDatasourceUrl : List (String × String) := []
  ApplicationName : String := ""
  ContainsDependencySpringCloudAzureStarter : Bool := false
  ContainsDependencySpringCloudAzureStarterJdbcPostgresql : Bool := false
  ContainsDependencySpringCloudAzureStarterJdbcMysql : Bool := false
  ContainsDependencySpringCloudEurekaServer : Bool := false
  ContainsDependencySpringCloudEurekaClient : Bool := false
  ContainsDependencySpringCloudConfigServer : Bool := false
  ContainsDependencySpringCloudConfigClient : Bool := false
deriving DecidableEq

/-- Detected project record (the fields of `Project` that the Java detector
reads or writes). -/
structure Project where
  Language : String := ""
  Path : String := ""
  DetectionRule : String := ""
  Dependencies : List ProjectDependency := []
  DatabaseDeps : List String := []
  AzureDeps : List AzureDep := []
  Metadata : ProjectMetadata := {}
deriving DecidableEq

/-- Spring Boot project context built by
`detectAzureDependenciesByAnalyzingSpringBootProject`; `applicationProperties`
is the loaded configuration map, carried as an entry list whose order stands
for this run's Go map iteration order. -/
structure SpringBootProject where
  springBootVersion : String := ""
  applicationProperties : List (String × String) := []
  parentProject : Option mavenProject := none
  mavenProject : mavenProject := {}
deriving DecidableEq

/-- A Maven coordinate used by the database rule table (`MavenDependency`). -/
structure MavenDependency where
  groupId : String
  artifactId : String
deriving DecidableEq

/-- One row of the database rule table (`DatabaseDependencyRule`). -/
structure DatabaseDependencyRule where
  databaseDep : String
  mavenDependencies : List MavenDependency
deriving DecidableEq

/-- The declarative database rule table (`databaseDependencyRules`). -/
def databaseDependencyRules : List DatabaseDependencyRule :=
  [ { databaseDep := DbPostgres,
      mavenDependencies := [⟨"org.postgresql", "postgresql"⟩] },
    { databaseDep := DbMySql,
      mavenDependencies := [⟨"com.mysql", "mysql-connector-j"⟩] },
    { databaseDep := DbRedis,
      mavenDependencies :=
        [⟨"org.springframework.boot", "spring-boot-starter-data-redis"⟩,
         ⟨"org.springframework.boot", "spring-boot-starter-data-redis-reactive"⟩] },
    { databaseDep := DbMongo,
      mavenDependencies :=
        [⟨"org.springframework.boot", "spring-boot-starter-data-mongodb"⟩,
         ⟨"org.springframework.boot", "spring-boot-starter-data-mongodb-reactive"⟩] },
    { databaseDep := DbCosmos,
      mavenDependencies := [⟨"com.azure.spring", "spring-cloud-azure-starter-data-cosmos"⟩] } ]

/-- Membership test over the project's declared dependencies (`hasDependency`). -/
def hasDependency (project : SpringBootProject) (groupId artifactId : String) : Bool :=
  project.mavenProject.Dependencies.any
    (fun d => d.GroupId == groupId && d.ArtifactId == artifactId)

/-- The key pattern head looked for by `getBindingDestinationMap`. -/
def bindingDestKeyStart : String := "spring.cloud.stream.bindings."

/-- The key pattern tail looked for by `getBindingDestinationMap`. -/
def bindingDestKeyEnd : String := ".destination"

/-- Does the key match `spring.cloud.stream.bindings.<binding-name>.destination`? -/
def matchesBindingKey (key : String) : Bool :=
  strStartsWith key bindingDestKeyStart && strEndsWith key bindingDestKeyEnd

/-- Extracts the binding name: the Go slice
`key[len(bindingDestKeyStart) : len(key)-len(bindingDestKeyEnd)]` (the keys
involved are ASCII, so rune and byte indices agree). -/
def bindingNameOf (key : String) : String :=
  String.mk ((key.data.drop bindingDestKeyStart.data.length).take
    (key.data.length - bindingDestKeyEnd.data.length - bindingDestKeyStart.data.length))

/-- Models `getBindingDestinationMap`: the binding-name/destination pairs
collected from the matching property keys. The source inserts them into a
fresh Go map; since distinct property keys yield distinct binding names, that
map's entries are exactly this list, and the list order stands for the run's
iteration order. -/
def getBindingDestinationMap (properties : List (String × String)) : List (String × String) :=
  properties.filterMap
    (fun kv => if matchesBindingKey kv.1 then some (bindingNameOf kv.1, kv.2) else none)

/-- Appends a value unless it is already present (the `valueSet` map insert of
`distinctValues`). -/
def dedupAppend (acc : List String) (v : String) : List String :=
  if v ∈ acc then acc else acc ++ [v]

/-- Models `distinctValues`: the distinct values of the entry list. The source
collects the values into a set-map and then lists that map's keys in iteration
order; the model lists them in first-seen order, one of the admissible
enumerations. -/
def distinctValues (input : List (String × String)) : List String :=
  input.foldl (fun acc kv => dedupAppend acc kv.2) []

/-- Models `detectSpringFrontend`: append the frontend tag when the
frontend-maven-plugin is configured. -/
def detectSpringFrontend (azdProject : Project) (sp : SpringBootProject) : Project :=
  if sp.mavenProject.Build.Plugins.any
      (fun p => p.GroupId == "com.github.eirslett" && p.ArtifactId == "frontend-maven-plugin") then
    { azdProject with Dependencies := azdProject.Dependencies ++ [ProjectDependency.springFrontend] }
  else azdProject

/-- Does some alternative coordinate of the rule match a declared dependency?
The source breaks out of the alternatives loop after the first hit, which adds
the rule's tag exactly once. -/
def ruleMatches (sp : SpringBootProject) (rule : DatabaseDependencyRule) : Bool :=
  rule.mavenDependencies.any (fun t => hasDependency sp t.groupId t.artifactId)

/-- Models `detectDatabases`: collect the tags of the matching rules (the
`databaseDepMap` keys, gathered here in rule order — the rules carry distinct
tags) and, when non-empty, store them sorted. -/
def detectDatabases (azdProject : Project) (sp : SpringBootProject) : Project :=
  let found := databaseDependencyRules.foldl
    (fun acc rule => if ruleMatches sp rule then acc ++ [rule.databaseDep] else acc) []
  if found = [] then azdProject
  else { azdProject with DatabaseDeps := sortStrings found }

/-- Models `detectServiceBusAccordingToJMSMavenDependency`. -/
def detectServiceBusAccordingToJMSMavenDependency
    (azdProject : Project) (sp : SpringBootProject) : Project :=
  if hasDependency sp "com.azure.spring" "spring-cloud-azure-starter-servicebus-jms" then
    { azdProject with AzureDeps := azdProject.AzureDeps ++ [AzureDep.serviceBus [] true] }
  else azdProject

/-- Models `detectServiceBusAccordingToSpringCloudStreamBinderMavenDependency`. -/
def detectServiceBusAccordingToSpringCloudStreamBinderMavenDependency
    (azdProject : Project) (sp : SpringBootProject) : Project :=
  if hasDependency sp "com.azure.spring" "spring-cloud-azure-stream-binder-servicebus" then
    { azdProject with AzureDeps := azdProject.AzureDeps ++
        [AzureDep.serviceBus (distinctValues (getBindingDestinationMap sp.applicationProperties))
          false] }
  else azdProject

/-- Models `detectServiceBus` (JMS rule first, then the stream-binder rule). -/
def detectServiceBus (azdProject : Project) (sp : SpringBootProject) : Project :=
  detectServiceBusAccordingToSpringCloudStreamBinderMavenDependency
    (detectServiceBusAccordingToJMSMavenDependency azdProject sp) sp

/-- Models `detectEventHubsAccordingToSpringCloudStreamBinderMavenDependency`. -/
def detectEventHubsAccordingToSpringCloudStreamBinderMavenDependency
    (azdProject : Project) (sp : SpringBootProject) : Project :=
  if hasDependency sp "com.azure.spring" "spring-cloud-azure-stream-binder-eventhubs" then
    { azdProject with AzureDeps := azdProject.AzureDeps ++
        [AzureDep.eventHubs (distinctValues (getBindingDestinationMap sp.applicationProperties))
          false ""] }
  else azdProject

/-- Models `detectEventHubsAccordingToSpringCloudStreamKafkaMavenDependency`. -/
def detectEventHubsAccordingToSpringCloudStreamKafkaMavenDependency
    (azdProject : Project) (sp : SpringBootProject) : Project :=
  if hasDependency sp "org.springframework.cloud" "spring-cloud-starter-stream-kafka" then
    { azdProject with AzureDeps := azdProject.AzureDeps ++
        [AzureDep.eventHubs (distinctValues (getBindingDestinationMap sp.applicationProperties))
          true sp.springBootVersion] }
  else azdProject

/-- Models `detectEventHubs` (stream-binder rule first, then the Kafka rule). -/
def detectEventHubs (azdProject : Project) (sp : SpringBootProject) : Project :=
  detectEventHubsAccordingToSpringCloudStreamKafkaMavenDependency
    (detectEventHubsAccordingToSpringCloudStreamBinderMavenDependency azdProject sp) sp

/-- The checkpoint-store property key consulted for the storage requirement. -/
def checkpointContainerKey : String :=
  "spring.cloud.azure.eventhubs.processor.checkpoint-store.container-name"

/-- Models `detectStorageAccountAccordingToSpringCloudStreamBinderMavenDependencyAndProperty`:
the source walks the binding names, remembers the first one containing `-in-`
(breaking out of the loop), and appends the storage requirement when one was
found, with the checkpoint container property value (Go zero value `""` when
the key is absent). -/
def detectStorageAccountAccordingToSpringCloudStreamBinderMavenDependencyAndProperty
    (azdProject : Project) (sp : SpringBootProject) : Project :=
  if hasDependency sp "com.azure.spring" "spring-cloud-azure-stream-binder-eventhubs" then
    match (getBindingDestinationMap sp.applicationProperties).find?
        (fun kv => strContainsSub kv.1 "-in-") with
    | some _ =>
      { azdProject with AzureDeps := azdProject.AzureDeps ++
          [AzureDep.storageAccount
            [lookupEntriesD sp.applicationProperties checkpointContainerKey]] }
    | none => azdProject
  else azdProject

/-- Models `detectStorageAccount`. -/
def detectStorageAccount (azdProject : Project) (sp : SpringBootProject) : Project :=
  detectStorageAccountAccordingToSpringCloudStreamBinderMavenDependencyAndProperty azdProject sp

/-- Is the character a lower-case ASCII letter or digit (the regexp character
class `[a-z0-9]`)? -/
def isLowerAlnum (c : Char) : Bool :=
  (97 ≤ c.toNat && c.toNat ≤ 122) || (48 ≤ c.toNat && c.toNat ≤ 57)

/-- The dash character of the database-name regexp. -/
def dashChar : Char := '-'

/-- No two adjacent dashes occur in the list. -/
def noTwoDashes : List Char → Bool
  | [] => true
  | [_] => true
  | a :: b :: rest => !(a == dashChar && b == dashChar) && noTwoDashes (b :: rest)

/-- Models `IsValidDatabaseName`: length between 3 and 63 and a full match of
`[a-z0-9]+(-[a-z0-9]+)*`, expressed as: every character is a lower-case
alphanumeric or a dash, the ends are not dashes, and no two dashes are
adjacent (the names involved are ASCII, so rune and byte lengths agree). -/
def IsValidDatabaseName (name : String) : Bool :=
  let l := name.data
  decide (3 ≤ l.length) && decide (l.length ≤ 63) &&
  l.all (fun c => isLowerAlnum c || c == dashChar) &&
  (match l.head? with
   | some c => !(c == dashChar)
   | none => false) &&
  (match l.getLast? with
   | some c => !(c == dashChar)
   | none => false) &&
  noTwoDashes l

/-- The characters after the last `/`, or `none` when no `/` occurs
(`strings.LastIndex(url, "/") == -1`). -/
def afterLastSlash : List Char → Option (List Char)
  | [] => none
  | c :: rest =>
    match afterLastSlash rest with
    | some r => some r
    | none => if c = '/' then some rest else none

/-- The characters before the first `?`, or the whole list when none occurs. -/
def takeBeforeQuery : List Char → List Char
  | [] => []
  | c :: rest => if c = '?' then [] else c :: takeBeforeQuery rest

/-- Models `getDatabaseName`: the segment after the last slash, cut at the
first `?`, validated by `IsValidDatabaseName` (empty string on failure). -/
def getDatabaseName (datasourceURL : String) : String :=
  match afterLastSlash datasourceURL.data with
  | none => ""
  | some tailChars =>
    let result := String.mk (takeBeforeQuery tailChars)
    if IsValidDatabaseName result then result else ""

/-- Update-or-append insert into the datasource-name entry list (the Go map
assignment `m[k] = v`). -/
def insertDbName : List (String × String) → String → String → List (String × String)
  | [], k, v => [(k, v)]
  | e :: rest, k, v => if e.1 = k then (k, v) :: rest else e :: insertDbName rest k v

/-- Models `detectPropertySpringDatasourceUrl` (the map initialization from nil
to empty is invisible in the entry-list model). -/
def detectPropertySpringDatasourceUrl (azdProject : Project) (sp : SpringBootProject) : Project :=
  match lookupEntries sp.applicationProperties "spring.datasource.url" with
  | none => azdProject
  | some propertyValue =>
    if getDatabaseName propertyValue = "" then azdProject
    else if strStartsWith propertyValue "jdbc:postgresql" then
      { azdProject with Metadata := { azdProject.Metadata with
          DatabaseNameInPropertySpringDatasourceUrl :=
            insertDbName azdProject.Metadata.DatabaseNameInPropertySpringDatasourceUrl
              DbPostgres (getDatabaseName propertyValue) } }
    else if strStartsWith propertyValue "jdbc:mysql" then
      { azdProject with Metadata := { azdProject.Metadata with
          DatabaseNameInPropertySpringDatasourceUrl :=
            insertDbName azdProject.Metadata.DatabaseNameInPropertySpringDatasourceUrl
              DbMySql (getDatabaseName propertyValue) } }
    else azdProject

/-- Models `detectPropertySpringApplicationName`. -/
def detectPropertySpringApplicationName (azdProject : Project) (sp : SpringBootProject) : Project :=
  match lookupEntries sp.applicationProperties "spring.application.name" with
  | some appName =>
    { azdProject with Metadata := { azdProject.Metadata with ApplicationName := appName } }
  | none => azdProject

/-- Models `detectDependencySpringCloudAzureStarter`. -/
def detectDependencySpringCloudAzureStarter (azdProject : Project) (sp : SpringBootProject) : Project :=
  if hasDependency sp "com.azure.spring" "spring-cloud-azure-starter" then
    { azdProject with Metadata := { azdProject.Metadata with
        ContainsDependencySpringCloudAzureStarter := true } }
  else azdProject

/-- Models `detectDependencySpringCloudAzureStarterJdbcPostgresql`. -/
def detectDependencySpringCloudAzureStarterJdbcPostgresql
    (azdProject : Project) (sp : SpringBootProject) : Project :=
  if hasDependency sp "com.azure.spring" "spring-cloud-azure-starter-jdbc-postgresql" then
    { azdProject with Metadata := { azdProject.Metadata with
        ContainsDependencySpringCloudAzureStarterJdbcPostgresql := true } }
  else azdProject

/-- Models `detectDependencySpringCloudAzureStarterJdbcMysql`. -/
def detectDependencySpringCloudAzureStarterJdbcMysql
    (azdProject : Project) (sp : SpringBootProject) : Project :=
  if hasDependency sp "com.azure.spring" "spring-cloud-azure-starter-jdbc-mysql" then
    { azdProject with Metadata := { azdProject.Metadata with
        ContainsDependencySpringCloudAzureStarterJdbcMysql := true } }
  else azdProject

/-- Models `detectDependencySpringCloudEureka` (server flag, then client flag). -/
def detectDependencySpringCloudEureka (azdProject : Project) (sp : SpringBootProject) : Project :=
  let p1 :=
    if hasDependency sp "org.springframework.cloud" "spring-cloud-starter-netflix-eureka-server" then
      { azdProject with Metadata := { azdProject.Metadata with
          ContainsDependencySpringCloudEurekaServer := true } }
    else azdProject
  if hasDependency sp "org.springframework.cloud" "spring-cloud-starter-netflix-eureka-client" then
    { p1 with Metadata := { p1.Metadata with ContainsDependencySpringCloudEurekaClient := true } }
  else p1

/-- Models `detectDependencySpringCloudConfig` (server flag, then client flag). -/
def detectDependencySpringCloudConfig (azdProject : Project) (sp : SpringBootProject) : Project :=
  let p1 :=
    if hasDependency sp "org.springframework.cloud" "spring-cloud-config-server" then
      { azdProject with Metadata := { azdProject.Metadata with
          ContainsDependencySpringCloudConfigServer := true } }
    else azdProject
  if hasDependency sp "org.springframework.cloud" "spring-cloud-starter-config" then
    { p1 with Metadata := { p1.Metadata with ContainsDependencySpringCloudConfigClient := true } }
  else p1

/-- Models `detectMetadata` (in source order). -/
def detectMetadata (azdProject : Project) (sp : SpringBootProject) : Project :=
  detectDependencySpringCloudConfig
    (detectDependencySpringCloudEureka
      (detectDependencySpringCloudAzureStarterJdbcMysql
        (detectDependencySpringCloudAzureStarterJdbcPostgresql
          (detectDependencySpringCloudAzureStarter
            (detectPropertySpringDatasourceUrl
              (detectPropertySpringApplicationName azdProject sp) sp) sp) sp) sp) sp) sp

/-- Models `detectSpringBootVersionFromProject`. -/
def detectSpringBootVersionFromProject (project : mavenProject) : String :=
  if project.Parent.ArtifactId = "spring-boot-starter-parent" then
    project.Parent.Version
  else
    match project.DependencyManagement.Dependencies.find?
        (fun d => d.ArtifactId == "spring-boot-dependencies") with
    | some d => d.Version
    | none => UnknownSpringBootVersion

/-- Models `detectSpringBootVersion` (the project itself wins over the root). -/
def detectSpringBootVersion (currentRoot : Option mavenProject) (mp : Option mavenProject) : String :=
  match mp with
  | some p =>
    if detectSpringBootVersionFromProject p ≠ UnknownSpringBootVersion then
      detectSpringBootVersionFromProject p
    else
      match currentRoot with
      | some r => detectSpringBootVersionFromProject r
      | none => UnknownSpringBootVersion
  | none =>
    match currentRoot with
    | some r => detectSpringBootVersionFromProject r
    | none => UnknownSpringBootVersion

/-- Models `isSpringBootApplication`: a Spring Boot parent or a
`spring-boot-starter*` dependency. -/
def isSpringBootApplication (mp : mavenProject) : Bool :=
  (mp.Parent.GroupId == "org.springframework.boot" &&
    mp.Parent.ArtifactId == "spring-boot-starter-parent") ||
  mp.Dependencies.any
    (fun d => d.GroupId == "org.springframework.boot" &&
      strStartsWith d.ArtifactId "spring-boot-starter")

/-- Models `detectAzureDependenciesByAnalyzingSpringBootProject`. The
`applicationProperties` argument carries the entries `readProperties` would
yield for the project path, in this run's map iteration order; when the
project is not a Spring Boot application the source returns before reading
any property file, leaving the record untouched. -/
def detectAzureDependenciesByAnalyzingSpringBootProject
    (applicationProperties : List (String × String)) (parentProject : Option mavenProject)
    (mp : mavenProject) (azdProject : Project) : Project :=
  if isSpringBootApplication mp then
    let sp : SpringBootProject :=
      { springBootVersion := detectSpringBootVersion parentProject (some mp),
        applicationProperties := applicationProperties,
        parentProject := parentProject,
        mavenProject := mp }
    detectSpringFrontend
      (detectMetadata
        (detectStorageAccount
          (detectEventHubs (detectServiceBus (detectDatabases azdProject sp) sp) sp) sp) sp) sp
  else azdProject

/-- Models `findBindingDestinations` in `java.go`, whose body is identical to
`getBindingDestinationMap`. -/
def findBindingDestinations (properties : List (String × String)) : List (String × String) :=
  getBindingDestinationMap properties

/-- Per-dependency step of the loop in `detectDependencies` (`java.go`): the
independent coordinate checks add database tags to the accumulated set
(modelled as a deduplicated list) and append Service Bus / Event Hubs /
Storage requirements. -/
def detectDependenciesStep (applicationProperties : List (String × String))
    (acc : List String × Project) (dep : dependency) : List String × Project :=
  let dbs0 := acc.1
  let proj0 := acc.2
  let dbs1 :=
    if dep.GroupId == "com.mysql" && dep.ArtifactId == "mysql-connector-j" then
      dedupAppend dbs0 DbMySql
    else dbs0
  let dbs2 :=
    if dep.GroupId == "org.postgresql" && dep.ArtifactId == "postgresql" then
      dedupAppend dbs1 DbPostgres
    else dbs1
  let dbs3 :=
    if dep.GroupId == "com.azure.spring" && dep.ArtifactId == "spring-cloud-azure-starter-data-cosmos" then
      dedupAppend dbs2 DbCosmos
    else dbs2
  let dbs4 :=
    if dep.GroupId == "org.springframework.boot" && dep.ArtifactId == "spring-boot-starter-data-redis" then
      dedupAppend dbs3 DbRedis
    else dbs3
  let dbs5 :=
    if dep.GroupId == "org.springframework.boot" && dep.ArtifactId == "spring-boot-starter-data-redis-reactive" then
      dedupAppend dbs4 DbRedis
    else dbs4
  let dbs6 :=
    if dep.GroupId == "org.springframework.boot" && dep.ArtifactId == "spring-boot-starter-data-mongodb" then
      dedupAppend dbs5 DbMongo
    else dbs5
  let dbs7 :=
    if dep.GroupId == "org.springframework.boot" && dep.ArtifactId == "spring-boot-starter-data-mongodb-reactive" then
      dedupAppend dbs6 DbMongo
    else dbs6
  let proj1 :=
    if dep.GroupId == "com.azure.spring" && dep.ArtifactId == "spring-cloud-azure-stream-binder-servicebus" then
      { proj0 with AzureDeps := proj0.AzureDeps ++
          [AzureDep.serviceBus
            ((findBindingDestinations applicationProperties).map Prod.snd) false] }
    else proj0
  let proj2 :=
    if dep.GroupId == "com.azure.spring" && dep.ArtifactId == "spring-cloud-azure-stream-binder-eventhubs" then
      let bindingDestinations := findBindingDestinations applicationProperties
      let destinations := distinctValues bindingDestinations
      let containsInBinding := bindingDestinations.any (fun kv => strContainsSub kv.1 "-in-")
      let withHubs := { proj1 with AzureDeps := proj1.AzureDeps ++
          [AzureDep.eventHubs destinations false ""] }
      if containsInBinding then
        { withHubs with AzureDeps := withHubs.AzureDeps ++
            [AzureDep.storageAccount
              [lookupEntriesD applicationProperties checkpointContainerKey]] }
      else withHubs
    else proj1
  (dbs7, proj2)

/-- Models `detectDependencies` in `java.go`. The Spring Boot check is the
same test as `isSpringBootApplication` (the body is inlined in this function);
`props` abstracts `readProperties`, giving the configuration entries for a
project path in this run's map iteration order, and is consulted only for
Spring Boot projects. -/
def detectDependencies (props : String → List (String × String))
    (mp : mavenProject) (project : Project) : Project :=
  let applicationProperties :=
    if isSpringBootApplication mp then props project.Path else []
  let r := mp.Dependencies.foldl (detectDependenciesStep applicationProperties) ([], project)
  if r.1 = [] then r.2
  else { r.2 with DatabaseDeps := sortStrings r.1 }

/-- One file slot of the descriptor file system: the file is absent, fails to
parse, or parses to a descriptor. -/
inductive PomFsEntry where
  | missing
  | malformed (parseErr : String)
  | parsed (mp : mavenProject)

/-- Mutable state of the Java detector (`javaDetector.rootProjects`):
multi-module descriptors registered so far, in registration order. -/
structure JavaDetector where
  rootProjects : List mavenProject := []
deriving DecidableEq

/-- Error message of `os.ReadFile` on a missing file (a `*PathError`, which
carries the file path). -/
def osReadFileErr (filePath : String) : String :=
  "open " ++ filePath ++ ": no such file or directory"

/-- The part of the character list before the last `/`, when a `/` occurs. -/
def beforeLastSlash : List Char → Option (List Char)
  | [] => none
  | c :: rest =>
    match beforeLastSlash rest with
    | some r => some (c :: r)
    | none => if c = '/' then some [] else none

/-- Models `filepath.Dir` for the clean paths used here. -/
def dirOfPath (p : String) : String :=
  match beforeLastSlash p.data with
  | some r => String.mk r
  | none => "."

/-- Models `readMavenProject`: read the file (an `os` error for a missing
file carries the path), unmarshal it (a parse failure is wrapped as
`parsing xml: <err>`, without the path), and record the containing
directory. -/
def readMavenProject (fs : String → PomFsEntry) (filePath : String) : Except String mavenProject :=
  match fs filePath with
  | PomFsEntry.missing => Except.error (osReadFileErr filePath)
  | PomFsEntry.malformed parseErr => Except.error ("parsing xml: " ++ parseErr)
  | PomFsEntry.parsed project => Except.ok { project with path := dirOfPath filePath }

/-- The first directory entry whose lower-cased name is `pom.xml` (the loop in
`DetectProject` returns inside the first match). -/
def findPomEntry (entries : List String) : Option String :=
  entries.find? (fun e => strToLower e == "pom.xml")

/-- Models the `currentRoot` loop of `DetectProject` (java.go:46-52): every
registered root whose path is a position-wise preamble of the pom file path
overwrites `currentRoot`, and the loop has no break, so the last match in
registration order wins. -/
def findCurrentRoot (rootProjects : List mavenProject) (pomFile : String) : Option mavenProject :=
  rootProjects.foldl
    (fun acc rootProject =>
      if strStartsWith pomFile rootProject.path then some rootProject else acc)
    none

/-- Models `javaDetector.DetectProject`: find a pom.xml entry, parse it,
register multi-module descriptors (returning no project and no error), and
classify leaf descriptors via `detectDependencies`. Returns the updated
detector state with the result. -/
def DetectProject (fs : String → PomFsEntry) (props : String → List (String × String))
    (jd : JavaDetector) (path : String) (entries : List String) :
    JavaDetector × Except String (Option Project) :=
  match findPomEntry entries with
  | none => (jd, Except.ok none)
  | some entryName =>
    let pomFile := pJoin path entryName
    match readMavenProject fs pomFile with
    | Except.error e => (jd, Except.error ("error reading pom.xml: " ++ e))
    | Except.ok project =>
      if project.Modules ≠ [] then
        ({ rootProjects := jd.rootProjects ++ [project] }, Except.ok none)
      else
        let _ := findCurrentRoot jd.rootProjects pomFile
        (jd, Except.ok (some (detectDependencies props project
          { Language := "java", Path := path,
            DetectionRule := "Inferred by presence of: pom.xml" })))

/-- Modelled from the spec: the directory-traversal driver is an external
collaborator not among the provided sources; per the spec, no failure is
fatal to the overall traversal — every failure is scoped to the one
descriptor that triggered it, so the driver records each directory's result
and continues with the remaining directories. -/
def walkDirectories (fs : String → PomFsEntry) (props : String → List (String × String))
    (jd : JavaDetector) : List (String × List String) → List (Except String (Option Project))
  | [] => []
  | (path, entries) :: rest =>
    let r := DetectProject fs props jd path entries
    r.2 :: walkDirectories fs props r.1 rest

/-- A loaded configuration map, modelled by its lookup function (the only
operations `readProperties` and its readers perform are inserts and lookups). -/
def PropsMap := String → Option String

/-- The empty configuration map (`make(map[string]string)`). -/
def emptyProps : PropsMap := fun _ => none

/-- Go map assignment `result[k] = v`. -/
def insertProp (m : PropsMap) (k v : String) : PropsMap :=
  fun q => if q = k then some v else m q

/-- Sequential insertion of an entry list into the map (later entries
overriding earlier ones for the same key). -/
def applyEntries (m : PropsMap) : List (String × String) → PropsMap
  | [] => m
  | e :: rest => applyEntries (insertProp m e.1 e.2) rest

/-- Is the character an ASCII white-space character (`unicode.IsSpace` on the
ASCII range used by these files)? -/
def isSpaceChar (c : Char) : Bool :=
  c == ' ' || c == '\t' || c == '\n' || c == '\x0b' || c == '\x0c' || c == '\r'

/-- Models `strings.TrimSpace` (ASCII range). -/
def strTrimSpace (s : String) : String :=
  String.mk (((s.data.dropWhile isSpaceChar).reverse.dropWhile isSpaceChar).reverse)

/-- The key/value entry contributed by one properties-file line: blank lines
and `#`-led lines are skipped, the rest is split at the first `=` (two parts;
lines without `=` contribute nothing), both parts trimmed. -/
def lineEntry (line : String) : Option (String × String) :=
  if strTrimSpace line = "" || strStartsWith line "#" then none
  else
    match splitAtChar '=' line.data with
    | some (k, v) => some (strTrimSpace (String.mk k), strTrimSpace (String.mk v))
    | none => none

/-- The entries contributed by a properties file's lines, in file order
(the scanner loop of `readPropertiesInPropertiesFile`). -/
def entriesOfLines (lines : List String) : List (String × String) :=
  lines.filterMap lineEntry

/-- The node kinds of the YAML library (`yaml.Node.Kind`). -/
inductive YamlKind where
  | document
  | mapping
  | sequence
  | scalar
  | aliasNode
deriving DecidableEq

/-- A parsed YAML node (`yaml.Node`: kind, scalar value, child content). -/
inductive YamlNode where
  | node (kind : YamlKind) (value : String) (content : List YamlNode)

mutual

/-- Flattened dot-separated key/value entries of a YAML node, in the traversal
order of `parseYAML`. The source threads the result map through the traversal
and performs one insert per scalar reached; that equals folding the inserts of
this entry list in order. -/
def flattenYam (pre : String) (n : YamlNode) : List (String × String) :=
  match n with
  | YamlNode.node YamlKind.document _ content => flattenYamAll pre content
  | YamlNode.node YamlKind.mapping _ content => flattenYamPairs pre content
  | YamlNode.node YamlKind.sequence _ content => flattenYamSeq pre 0 content
  | YamlNode.node YamlKind.scalar v _ => [(pre, v)]
  | YamlNode.node YamlKind.aliasNode _ _ => []

/-- Entries of a document's content nodes, in order. -/
def flattenYamAll (pre : String) (l : List YamlNode) : List (String × String) :=
  match l with
  | [] => []
  | x :: rest => flattenYam pre x ++ flattenYamAll pre rest

/-- Entries of a mapping's alternating key/value content: non-scalar keys are
skipped with their values (`continue`), scalar keys extend the prefix. -/
def flattenYamPairs (pre : String) (l : List YamlNode) : List (String × String) :=
  match l with
  | [] => []
  | [_] => []
  | keyNode :: valueNode :: rest =>
    (match keyNode with
     | YamlNode.node YamlKind.scalar keyStr _ =>
       flattenYam (if pre = "" then keyStr else pre ++ "." ++ keyStr) valueNode
     | _ => []) ++ flattenYamPairs pre rest

/-- Entries of a sequence's items, each under an indexed key `pre[i]`. -/
def flattenYamSeq (pre : String) (i : Nat) (l : List YamlNode) : List (String × String) :=
  match l with
  | [] => []
  | item :: rest =>
    flattenYam (pre ++ "[" ++ toString i ++ "]") item ++ flattenYamSeq pre (i + 1) rest

end

/-- The configuration-file slots of a project tree: a path maps to the line
list of an existing properties file, or to the parsed root node of an
existing YAML file (`osutil.FileExists` is `isSome` of the slot). -/
structure FileSys where
  propsFile : String → Option (List String)
  yamlFile : String → Option YamlNode

/-- Models `readPropertiesInPropertiesFile`: a missing file contributes
nothing (and no error); otherwise the file's entries are inserted in order. -/
def readPropertiesInPropertiesFile (fs : FileSys) (propertiesFilePath : String)
    (result : PropsMap) : PropsMap :=
  match fs.propsFile propertiesFilePath with
  | none => result
  | some lines => applyEntries result (entriesOfLines lines)

/-- Models `readPropertiesInYamlFile`: a missing file contributes nothing
(and no error); otherwise the flattened entries are inserted in order. -/
def readPropertiesInYamlFile (fs : FileSys) (yamlFilePath : String)
    (result : PropsMap) : PropsMap :=
  match fs.yamlFile yamlFilePath with
  | none => result
  | some root => applyEntries result (flattenYam "" root)

/-- The profile-activation key consulted by `readProperties`. -/
def activeProfileKey : String := "spring.profiles.active"

/-- The three base configuration file reads of `readProperties`, in order. -/
def readBaseProperties (fs : FileSys) (projectPath : String) : PropsMap :=
  readPropertiesInYamlFile fs (pJoin projectPath "src/main/resources/application.yaml")
    (readPropertiesInYamlFile fs (pJoin projectPath "src/main/resources/application.yml")
      (readPropertiesInPropertiesFile fs
        (pJoin projectPath "src/main/resources/application.properties") emptyProps))

/-- The three profile-suffixed configuration file reads of `readProperties`,
in order, over a given base map. -/
def readProfileProperties (fs : FileSys) (projectPath profile : String)
    (base : PropsMap) : PropsMap :=
  readPropertiesInYamlFile fs
    (pJoin projectPath ("src/main/resources/application-" ++ profile ++ ".yaml"))
    (readPropertiesInYamlFile fs
      (pJoin projectPath ("src/main/resources/application-" ++ profile ++ ".yml"))
      (readPropertiesInPropertiesFile fs
        (pJoin projectPath ("src/main/resources/application-" ++ profile ++ ".properties"))
        base))

/-- Models `readProperties`: merge the three base files, then, exactly when
the merged base map carries `spring.profiles.active`, merge the three
profile-suffixed variants over it. -/
def readProperties (fs : FileSys) (projectPath : String) : PropsMap :=
  match readBaseProperties fs projectPath activeProfileKey with
  | some profile =>
    readProfileProperties fs projectPath profile (readBaseProperties fs projectPath)
  | none => readBaseProperties fs projectPath

/-- The combined entry sequence the three profile files insert, in order. -/
def profileEntries (fs : FileSys) (projectPath profile : String) : List (String × String) :=
  (match fs.propsFile
      (pJoin projectPath ("src/main/resources/application-" ++ profile ++ ".properties")) with
   | none => []
   | some lines => entriesOfLines lines) ++
  (match fs.yamlFile
      (pJoin projectPath ("src/main/resources/application-" ++ profile ++ ".yml")) with
   | none => []
   | some root => flattenYam "" root) ++
  (match fs.yamlFile
      (pJoin projectPath ("src/main/resources/application-" ++ profile ++ ".yaml")) with
   | none => []
   | some root => flattenYam "" root)

/-- The last value an entry list binds a key to, if any (the surviving binding
after inserting the entries in order). -/
def lastBinding : List (String × String) → String → Option String
  | [], _ => none
  | e :: rest, k =>
    match lastBinding rest k with
    | some v => some v
    | none => if e.1 = k then some e.2 else none

/-- The placeholder-opening dollar character. -/
def dollarChar : Char := '$'

/-- The placeholder-opening brace character. -/
def lbraceChar : Char := '\x7b'

/-- The placeholder-closing brace character. -/
def rbraceChar : Char := '\x7d'

/-- Modelled from the spec (§4.2; the substitutor's source file is not among
the provided sources): scan left to right; each occurrence of a
dollar-brace-name-brace placeholder whose name is in the mapping is replaced
by the property's value, occurrences with an unknown name are kept verbatim,
and the emitted replacement text is not rescanned (single pass). An unclosed
opener is kept verbatim to the end. -/
def substGo (props : String → Option String) (fuel : Nat) (l : List Char) : List Char :=
  match l with
  | [] => []
  | [c] => [c]
  | c1 :: c2 :: rest =>
    match fuel with
    | 0 => c1 :: c2 :: rest
    | Nat.succ f =>
      if c1 = dollarChar ∧ c2 = lbraceChar then
        match splitAtChar rbraceChar rest with
        | some (nm, after) =>
          (match props (String.mk nm) with
           | some v => v.data
           | none => c1 :: c2 :: (nm ++ [rbraceChar])) ++ substGo props f after
        | none => c1 :: c2 :: rest
      else c1 :: substGo props f (c2 :: rest)

theorem substGo_fuel (props : String → Option String) :
    ∀ (n m : Nat) (l : List Char), l.length ≤ n → l.length ≤ m →
      substGo props n l = substGo props m l := by
  intro n
  induction n with
  | zero =>
    intro m l hn hm
    match l with
    | [] => cases m <;> rfl
    | [c] => cases m <;> rfl
    | c1 :: c2 :: rest => simp at hn
  | succ f ih =>
    intro m l hn hm
    match l with
    | [] => cases m <;> rfl
    | [c] => cases m <;> rfl
    | c1 :: c2 :: rest =>
      match m with
      | 0 => simp at hm
      | Nat.succ g =>
        simp only [substGo]
        by_cases hc : c1 = dollarChar ∧ c2 = lbraceChar
        · rw [if_pos hc, if_pos hc]
          cases hsp : splitAtChar rbraceChar rest with
          | none => rfl
          | some p =>
            obtain ⟨nm, after⟩ := p
            have hlt := splitAtChar_length rbraceChar rest nm after hsp
            simp only [List.length_cons] at hn hm
            simp only []
            rw [ih g after (by omega) (by omega)]
        · rw [if_neg hc, if_neg hc]
          simp only [List.length_cons] at hn hm
          rw [ih g (c2 :: rest) (by simp only [List.length_cons]; omega)
            (by simp only [List.length_cons]; omega)]

/-- The placeholder substitution pass over a character list: the fuel of
`substGo` is instantiated with the list length, which every recursive call
strictly decreases below, so the fuel-exhausted arm is never taken. -/
def substChars (props : String → Option String) (l : List Char) : List Char :=
  substGo props l.length l

/-- One property entry of a POM (the test file builds it from `XMLName.Local`
and `Value`; the XML name is flattened to its local part). -/
structure Property where
  Local : String := ""
  Value : String := ""
deriving DecidableEq

/-- The property block of a POM (`Properties` with its `Entries`). -/
structure Properties where
  Entries : List Property := []
deriving DecidableEq

/-- A dependency entry of the effective-POM resolver, with the `type` field
(`pom` for BOM imports) carried as `DepType`. -/
structure pomDependency where
  GroupId : String := ""
  ArtifactId : String := ""
  Version : String := ""
  Scope : String := ""
  DepType : String := ""
deriving DecidableEq

/-- Modelled from the spec (§3 DescriptorNode; the `pom` source file is not
among the provided sources, its shape follows the test file): properties,
dependencies, the managed-dependency block, and the managed sets of the
resolved parent chain, nearest parent first (§4.4). -/
structure pom where
  Properties : Properties := {}
  Dependencies : List pomDependency := []
  dmDependencies : List pomDependency := []
  parentsManaged : List (List pomDependency) := []
deriving DecidableEq

/-- Lookup of a POM property by name (first entry wins; XML property names
are unique in a well-formed block). -/
def pomProps (p : pom) (nm : String) : Option String :=
  (p.Properties.Entries.find? (fun e => e.Local == nm)).map (fun e => e.Value)

/-- Modelled from the spec (§4.2): the placeholder substitutor over a POM's
property mapping. -/
def replaceAllPlaceholders (p : pom) (input : String) : String :=
  String.mk (substChars (pomProps p) input.data)

/-- Modelled from the spec (§4.4, §8): the managed-dependency set declared by
an imported BOM. The spec pins exactly one BOM: `spring-boot-dependencies`
at `3.0.0` manages `org.slf4j:slf4j-api` at `2.0.4`; coordinates outside the
spec yield the empty set. -/
def bomManagedDependencies (g a v : String) : List pomDependency :=
  if g = "org.springframework.boot" ∧ a = "spring-boot-dependencies" ∧ v = "3.0.0" then
    [{ GroupId := "org.slf4j", ArtifactId := "slf4j-api", Version := "2.0.4" }]
  else []

/-- Is the managed entry a BOM import (import scope, `pom` type)? -/
def isImportEntry (e : pomDependency) : Bool :=
  e.Scope == "import" && e.DepType == "pom"

/-- The version pinned for a coordinate by the direct (non-import) entries of
a managed set, first entry wins. -/
def findDirectVersion (managed : List pomDependency) (g a : String) : Option String :=
  (managed.find? (fun e => e.GroupId == g && e.ArtifactId == a && !(isImportEntry e))).map
    (fun e => e.Version)

/-- Modelled from the spec (§4.4 step 4): the version found through the BOM
imports of a managed set, resolved by recursively applying direct-then-import
precedence against each imported descriptor's managed set, first import that
resolves wins; the recursion is bounded to guarantee termination. -/
def importsVersion : Nat → List pomDependency → String → String → Option String
  | 0, _, _, _ => none
  | Nat.succ fuel, managed, g, a =>
    managed.findSome? (fun e =>
      if isImportEntry e then
        let bom := bomManagedDependencies e.GroupId e.ArtifactId e.Version
        match findDirectVersion bom g a with
        | some v => some v
        | none => importsVersion fuel bom g a
      else none)

/-- Modelled from the spec: the bound on BOM import recursion depth. -/
def bomRecLimit : Nat := 8

/-- Modelled from the spec (§4.4): the version of a dependency under the
precedence own-version, leaf managed block, parent chain (nearest first),
BOM imports (leaf's, then the parents'), else empty — which is not an
error. -/
def resolveVersion (leafManaged : List pomDependency)
    (parentChainManaged : List (List pomDependency)) (d : pomDependency) : String :=
  if d.Version ≠ "" then d.Version
  else
    match findDirectVersion leafManaged d.GroupId d.ArtifactId with
    | some v => v
    | none =>
      match parentChainManaged.findSome?
          (fun ms => findDirectVersion ms d.GroupId d.ArtifactId) with
      | some v => v
      | none =>
        match importsVersion bomRecLimit leafManaged d.GroupId d.ArtifactId with
        | some v => v
        | none =>
          match parentChainManaged.findSome?
              (fun ms => importsVersion bomRecLimit ms d.GroupId d.ArtifactId) with
          | some v => v
          | none => ""

/-- Modelled from the spec (§4.4, and the expected outputs of the
`toEffectivePom` test): a resolved dependency entry keeps its coordinate,
takes the resolved version, and defaults an undeclared scope to `compile`. -/
def resolveDependency (leafManaged : List pomDependency)
    (parentChainManaged : List (List pomDependency)) (d : pomDependency) : pomDependency :=
  { d with
    Version := resolveVersion leafManaged parentChainManaged d,
    Scope := if d.Scope = "" then "compile" else d.Scope }

/-- Modelled from the spec (§4.4): the effective view of a descriptor —
every dependency entry resolved against the leaf's managed block and the
parent chain. (File reading and XML parsing are the parser component's job;
the synthesizer is modelled on the parsed descriptor.) -/
def toEffectivePom (p : pom) : pom :=
  { p with
    Dependencies := p.Dependencies.map (resolveDependency p.dmDependencies p.parentsManaged) }

theorem isSpringBootApplication_eq_false (mp : mavenProject)
    (h1 : ¬(mp.Parent.GroupId = "org.springframework.boot" ∧
            mp.Parent.ArtifactId = "spring-boot-starter-parent"))
    (h2 : ∀ d ∈ mp.Dependencies, ¬(d.GroupId = "org.springframework.boot" ∧
            strStartsWith d.ArtifactId "spring-boot-starter" = true)) :
    isSpringBootApplication mp = false := by
  cases hb : isSpringBootApplication mp with
  | false => rfl
  | true =>
    exfalso
    unfold isSpringBootApplication at hb
    rw [Bool.or_eq_true] at hb
    cases hb with
    | inl hp =>
      rw [Bool.and_eq_true, beq_iff_eq, beq_iff_eq] at hp
      exact h1 hp
    | inr hd =>
      rw [List.any_eq_true] at hd
      obtain ⟨d, hmem, hdp⟩ := hd
      rw [Bool.and_eq_true, beq_iff_eq] at hdp
      exact h2 d hmem ⟨hdp.1, hdp.2⟩

/-- C10: when a Maven project has neither the `spring-boot-starter-parent`
parent (groupId `org.springframework.boot`) nor any dependency with groupId
`org.springframework.boot` and an artifactId starting with
`spring-boot-starter`, `detectAzureDependenciesByAnalyzingSpringBootProject`
returns the project record unchanged — no database dependencies, Azure
resource dependencies or metadata are added — and the result does not depend
on the application property files (they are never consulted). -/
theorem c10_non_spring_boot_leaves_project_unchanged (mp : mavenProject)
    (h1 : ¬(mp.Parent.GroupId = "org.springframework.boot" ∧
            mp.Parent.ArtifactId = "spring-boot-starter-parent"))
    (h2 : ∀ d ∈ mp.Dependencies, ¬(d.GroupId = "org.springframework.boot" ∧
            strStartsWith d.ArtifactId "spring-boot-starter" = true)) :
    ∀ (applicationProperties : List (String × String)) (parentProject : Option mavenProject)
      (azdProject : Project),
      detectAzureDependenciesByAnalyzingSpringBootProject applicationProperties parentProject
        mp azdProject = azdProject := by
  intro applicationProperties parentProject azdProject
  unfold detectAzureDependenciesByAnalyzingSpringBootProject
  rw [isSpringBootApplication_eq_false mp h1 h2]
  simp

/-- Concrete non-Spring-Boot project used in the C10 witness. -/
def c10MavenProject : mavenProject :=
  { Dependencies := [{ GroupId := "junit", ArtifactId := "junit", Version := "4.13.2",
                       Scope := "test" }] }

/-- Project record with populated fields used in the C10 witness. -/
def c10Project : Project :=
  { Language := "java", Path := "/work/app", DetectionRule := "Inferred by presence of: pom.xml" }

/-- C10 witness: the theorem applied at a concrete non-Spring-Boot project
and a non-trivial property map. -/
theorem c10_witness :
    detectAzureDependenciesByAnalyzingSpringBootProject
      [("spring.cloud.stream.bindings.consume-in-0.destination", "orders")] none
      c10MavenProject c10Project = c10Project :=
  c10_non_spring_boot_leaves_project_unchanged c10MavenProject
    (by decide) (by decide)
    [("spring.cloud.stream.bindings.consume-in-0.destination", "orders")] none c10Project

/-- C6: a directory whose pom.xml parses with a non-empty module list yields
no project record and no error from `DetectProject` (the descriptor is only
registered as an aggregator), and — for any detector state — a returned
project record can only arise from a descriptor whose module list is empty. -/
theorem c6_aggregator_returns_nothing (fs : String → PomFsEntry)
    (props : String → List (String × String)) (jd : JavaDetector)
    (path : String) (entries : List String) (entryName : String) (project : mavenProject)
    (hfind : findPomEntry entries = some entryName)
    (hfs : fs (pJoin path entryName) = PomFsEntry.parsed project)
    (hmod : project.Modules ≠ []) :
    (DetectProject fs props jd path entries).2 = Except.ok none ∧
    ∀ (jd2 : JavaDetector) (result : Project),
      (DetectProject fs props jd2 path entries).2 ≠ Except.ok (some result) := by
  have hread : readMavenProject fs (pJoin path entryName) =
      Except.ok { project with path := dirOfPath (pJoin path entryName) } := by
    unfold readMavenProject
    rw [hfs]
  constructor
  · simp only [DetectProject, hfind, hread]
    rw [if_pos (by simpa using hmod)]
  · intro jd2 result
    simp only [DetectProject, hfind, hread]
    rw [if_pos (by simpa using hmod)]
    simp

/-- Concrete multi-module descriptor file system for the C6 witness. -/
def c6Fs : String → PomFsEntry := fun p =>
  if p = "/repo/pom.xml" then
    PomFsEntry.parsed { Modules := ["app", "library"] }
  else PomFsEntry.missing

/-- C6 witness: the theorem applied to a concrete two-module aggregator. -/
theorem c6_witness :
    (DetectProject c6Fs (fun _ => []) {} "/repo" ["pom.xml"]).2 = Except.ok none ∧
    (DetectProject c6Fs (fun _ => []) { rootProjects := [{}] } "/repo" ["pom.xml"]).2 ≠
      Except.ok (some { Language := "java" }) := by
  have h := c6_aggregator_returns_nothing c6Fs (fun _ => []) {} "/repo" ["pom.xml"] "pom.xml"
    { Modules := ["app", "library"] } (by decide) (by simp [c6Fs, pJoin]) (by decide)
  exact ⟨h.1, h.2 { rootProjects := [{}] } { Language := "java" }⟩


theorem foldl_overwrite_eq_getLast? {α : Type} (q : α → Bool) (l : List α) :
    ∀ acc : Option α,
      l.foldl (fun a x => if q x then some x else a) acc =
        match (l.filter q).getLast? with
        | some x => some x
        | none => acc := by
  induction l with
  | nil => intro acc; rfl
  | cons r rs ih =>
    intro acc
    rw [List.foldl_cons, ih]
    cases hq : q r with
    | false =>
      rw [List.filter_cons_of_neg (by simp [hq]), if_neg (by simp [hq])]
    | true =>
      rw [List.filter_cons_of_pos (by simp [hq]), if_pos (by simp [hq])]
      cases hfq : rs.filter q with
      | nil => simp
      | cons y ys =>
        rw [List.getLast?_cons_cons]
        cases hg : (y :: ys).getLast? with
        | none => rw [List.getLast?_eq_none_iff] at hg; exact absurd hg (by simp)
        | some x => rfl

/-- C2 amended: when two or more registered aggregator descriptors both
plausibly own (are path-preambles of) the same leaf pom file, the leaf is
associated with the LAST matching aggregator in registration order (the
`currentRoot` loop has no break and each match overwrites the previous one),
and the ambiguity is never surfaced as an error: a parsed leaf descriptor
always produces a project record, never an error, whatever the registered
roots are. -/
theorem c2_last_matching_root_wins_without_error
    (rootProjects : List mavenProject) (pomFile : String) :
    findCurrentRoot rootProjects pomFile =
      (rootProjects.filter (fun rp => strStartsWith pomFile rp.path)).getLast? ∧
    ∀ (fs : String → PomFsEntry) (props : String → List (String × String))
      (jd : JavaDetector) (path : String) (entries : List String)
      (entryName : String) (project : mavenProject),
      findPomEntry entries = some entryName →
      fs (pJoin path entryName) = PomFsEntry.parsed project →
      project.Modules = [] →
      ∃ result : Project,
        (DetectProject fs props jd path entries).2 = Except.ok (some result) := by
  constructor
  · rw [findCurrentRoot, foldl_overwrite_eq_getLast?]
    cases (rootProjects.filter (fun rp => strStartsWith pomFile rp.path)).getLast? with
    | none => rfl
    | some x => rfl
  · intro fs props jd path entries entryName project hfind hfs hmod
    have hread : readMavenProject fs (pJoin path entryName) =
        Except.ok { project with path := dirOfPath (pJoin path entryName) } := by
      unfold readMavenProject
      rw [hfs]
    refine ⟨detectDependencies props { project with path := dirOfPath (pJoin path entryName) }
      { Language := "java", Path := path,
        DetectionRule := "Inferred by presence of: pom.xml" }, ?_⟩
    simp only [DetectProject, hfind, hread]
    rw [if_neg (by simp [hmod])]

/-- First-registered aggregator of the C2 counterexample. -/
def c2Root1 : mavenProject := { path := "/repo" }

/-- Second-registered aggregator of the C2 counterexample; its path also
starts the leaf pom file path. -/
def c2Root2 : mavenProject := { path := "/repo/sub" }

/-- The leaf pom file of the C2 counterexample. -/
def c2PomFile : String := "/repo/sub/pom.xml"

/-- C2 counterexample: both registered aggregators plausibly own the leaf
(their paths start its pom path), yet the leaf is NOT associated with the
first matching aggregator in registration order — the loop keeps the last
match. -/
theorem c2_counterexample :
    strStartsWith c2PomFile c2Root1.path = true ∧
    strStartsWith c2PomFile c2Root2.path = true ∧
    c2Root1 ≠ c2Root2 ∧
    findCurrentRoot [c2Root1, c2Root2] c2PomFile ≠ some c2Root1 ∧
    findCurrentRoot [c2Root1, c2Root2] c2PomFile = some c2Root2 := by
  refine ⟨by decide, by decide, by decide, ?_, by decide⟩
  decide

/-- C2 witness: the amended theorem applied to the two concrete aggregators
and, for the no-error half, to a concrete parsed leaf. -/
theorem c2_amended_witness :
    findCurrentRoot [c2Root1, c2Root2] c2PomFile =
      ([c2Root1, c2Root2].filter
        (fun rp => strStartsWith c2PomFile rp.path)).getLast? ∧
    ∃ result : Project,
      (DetectProject (fun p => if p = "/repo/sub/pom.xml" then PomFsEntry.parsed {} else PomFsEntry.missing)
        (fun _ => []) { rootProjects := [c2Root1, c2Root2] } "/repo/sub" ["pom.xml"]).2 =
        Except.ok (some result) := by
  have h := c2_last_matching_root_wins_without_error [c2Root1, c2Root2] c2PomFile
  refine ⟨h.1, h.2 _ _ { rootProjects := [c2Root1, c2Root2] } "/repo/sub" ["pom.xml"] "pom.xml" {}
    (by decide) (by simp [pJoin]) rfl⟩

/-- Descriptor file system of the C9 counterexample: one pom.xml whose bytes
fail to parse. -/
def c9Fs : String → PomFsEntry := fun p =>
  if p = "/repo/app/pom.xml" then
    PomFsEntry.malformed "XML syntax error on line 3: unexpected EOF"
  else PomFsEntry.missing

/-- The error message produced for the malformed descriptor of `c9Fs`. -/
def c9ErrMsg : String :=
  "error reading pom.xml: parsing xml: XML syntax error on line 3: unexpected EOF"

/-- C9 counterexample: for a pom.xml whose bytes fail to parse, detection
fails with an error that carries the underlying parse error but NOT the file
path — the wrapped message contains no occurrence of the descriptor's path. -/
theorem c9_counterexample :
    (DetectProject c9Fs (fun _ => []) {} "/repo/app" ["pom.xml"]).2 =
      Except.error c9ErrMsg ∧
    strContainsSub c9ErrMsg "XML syntax error on line 3: unexpected EOF" = true ∧
    strContainsSub c9ErrMsg "/repo/app/pom.xml" = false := by
  refine ⟨rfl, by decide, by decide⟩

/-- C9 amended: a pom.xml whose bytes fail to parse makes detection for that
descriptor fail with an error wrapping the underlying parse error (as
`error reading pom.xml: parsing xml: <err>`, without the file path); the
failure is scoped to that one descriptor — the detector state is unchanged
and the traversal driver (modelled from the spec) records the error and
still processes every remaining directory. -/
theorem c9_parse_failure_scoped (fs : String → PomFsEntry)
    (props : String → List (String × String)) (jd : JavaDetector)
    (path : String) (entries : List String) (entryName parseErr : String)
    (hfind : findPomEntry entries = some entryName)
    (hfs : fs (pJoin path entryName) = PomFsEntry.malformed parseErr) :
    (DetectProject fs props jd path entries).2 =
      Except.error ("error reading pom.xml: " ++ ("parsing xml: " ++ parseErr)) ∧
    (DetectProject fs props jd path entries).1 = jd ∧
    ∀ rest : List (String × List String),
      walkDirectories fs props jd ((path, entries) :: rest) =
        Except.error ("error reading pom.xml: " ++ ("parsing xml: " ++ parseErr)) ::
          walkDirectories fs props jd rest := by
  have hread : readMavenProject fs (pJoin path entryName) =
      Except.error ("parsing xml: " ++ parseErr) := by
    unfold readMavenProject
    rw [hfs]
  have hdet : DetectProject fs props jd path entries =
      (jd, Except.error ("error reading pom.xml: " ++ ("parsing xml: " ++ parseErr))) := by
    simp only [DetectProject, hfind, hread]
  refine ⟨by rw [hdet], by rw [hdet], ?_⟩
  intro rest
  have hw : walkDirectories fs props jd ((path, entries) :: rest) =
      (DetectProject fs props jd path entries).2 ::
        walkDirectories fs props (DetectProject fs props jd path entries).1 rest := rfl
  rw [hw, hdet]

/-- C9 witness: the amended theorem applied to the concrete malformed
descriptor, with a second well-formed directory that the traversal still
processes. -/
theorem c9_amended_witness :
    (DetectProject c9Fs (fun _ => []) {} "/repo/app" ["pom.xml"]).2 =
      Except.error c9ErrMsg ∧
    walkDirectories c9Fs (fun _ => []) {} [("/repo/app", ["pom.xml"]), ("/other", [])] =
      [Except.error c9ErrMsg, Except.ok none] := by
  have h := c9_parse_failure_scoped c9Fs (fun _ => []) {} "/repo/app" ["pom.xml"] "pom.xml"
    "XML syntax error on line 3: unexpected EOF" (by decide) (by simp [pJoin, c9Fs])
  refine ⟨h.1, ?_⟩
  rw [h.2.2 [("/other", [])]]
  rfl

theorem distinctValues_aux_mem (l : List (String × String)) :
    ∀ (acc : List String) (x : String),
      x ∈ l.foldl (fun a kv => dedupAppend a kv.2) acc ↔ x ∈ acc ∨ x ∈ l.map Prod.snd := by
  induction l with
  | nil => intro acc x; simp
  | cons kv rest ih =>
    intro acc x
    rw [List.foldl_cons, ih, List.map_cons]
    unfold dedupAppend
    by_cases hm : kv.2 ∈ acc
    · rw [if_pos hm]
      constructor
      · rintro (h | h)
        · exact Or.inl h
        · exact Or.inr (List.mem_cons_of_mem _ h)
      · rintro (h | h)
        · exact Or.inl h
        · rcases List.mem_cons.mp h with h | h
          · subst h; exact Or.inl hm
          · exact Or.inr h
    · rw [if_neg hm]
      simp only [List.mem_append, List.mem_singleton, List.mem_cons]
      tauto

theorem distinctValues_aux_nodup (l : List (String × String)) :
    ∀ acc : List String, acc.Nodup →
      (l.foldl (fun a kv => dedupAppend a kv.2) acc).Nodup := by
  induction l with
  | nil => intro acc h; simpa using h
  | cons kv rest ih =>
    intro acc h
    rw [List.foldl_cons]
    apply ih
    unfold dedupAppend
    by_cases hm : kv.2 ∈ acc
    · rw [if_pos hm]; exact h
    · rw [if_neg hm]
      simp [List.nodup_append, h, hm]

theorem distinctValues_mem (l : List (String × String)) (x : String) :
    x ∈ distinctValues l ↔ x ∈ l.map Prod.snd := by
  rw [distinctValues, distinctValues_aux_mem]
  simp

theorem distinctValues_nodup (l : List (String × String)) :
    (distinctValues l).Nodup :=
  distinctValues_aux_nodup l [] List.nodup_nil

/-- C7: when a leaf Spring Boot project declares the
`com.azure.spring:spring-cloud-azure-stream-binder-eventhubs` dependency,
the produced Event Hubs requirement's names are exactly the distinct
destination values of the `spring.cloud.stream.bindings.<name>.destination`
property keys (duplicate destination values collapse to one entry), and a
storage-account requirement — whose container name is the value of
`spring.cloud.azure.eventhubs.processor.checkpoint-store.container-name` —
is additionally produced if and only if at least one binding name contains
the substring `-in-`. -/
theorem c7_eventhubs_names_and_checkpoint_storage (sp : SpringBootProject)
    (azdProject : Project)
    (hdep : hasDependency sp "com.azure.spring" "spring-cloud-azure-stream-binder-eventhubs"
      = true) :
    ((detectEventHubsAccordingToSpringCloudStreamBinderMavenDependency azdProject sp).AzureDeps =
      azdProject.AzureDeps ++
        [AzureDep.eventHubs
          (distinctValues (getBindingDestinationMap sp.applicationProperties)) false ""]) ∧
    (distinctValues (getBindingDestinationMap sp.applicationProperties)).Nodup ∧
    (∀ v, v ∈ distinctValues (getBindingDestinationMap sp.applicationProperties) ↔
      ∃ kv, kv ∈ sp.applicationProperties ∧ matchesBindingKey kv.1 = true ∧ kv.2 = v) ∧
    ((∃ kv, kv ∈ getBindingDestinationMap sp.applicationProperties ∧
        strContainsSub kv.1 "-in-" = true) →
      (detectStorageAccountAccordingToSpringCloudStreamBinderMavenDependencyAndProperty
          azdProject sp).AzureDeps =
        azdProject.AzureDeps ++
          [AzureDep.storageAccount
            [lookupEntriesD sp.applicationProperties checkpointContainerKey]]) ∧
    ((¬∃ kv, kv ∈ getBindingDestinationMap sp.applicationProperties ∧
        strContainsSub kv.1 "-in-" = true) →
      detectStorageAccountAccordingToSpringCloudStreamBinderMavenDependencyAndProperty
          azdProject sp = azdProject) := by
  refine ⟨?_, distinctValues_nodup _, ?_, ?_, ?_⟩
  · unfold detectEventHubsAccordingToSpringCloudStreamBinderMavenDependency
    rw [if_pos (by simp [hdep])]
  · intro v
    rw [distinctValues_mem]
    unfold getBindingDestinationMap
    simp only [List.map_filterMap, List.mem_filterMap]
    constructor
    · rintro ⟨kv, hmem, hv⟩
      by_cases hk : matchesBindingKey kv.1
      · rw [if_pos hk] at hv
        simp only [Option.map_some'] at hv
        exact ⟨kv, hmem, hk, by simpa using hv⟩
      · rw [if_neg hk] at hv
        simp at hv
    · rintro ⟨kv, hmem, hk, hv⟩
      exact ⟨kv, hmem, by rw [if_pos hk]; simp [hv]⟩
  · rintro ⟨kv, hmem, hin⟩
    unfold detectStorageAccountAccordingToSpringCloudStreamBinderMavenDependencyAndProperty
    rw [if_pos (by simp [hdep])]
    cases hf : (getBindingDestinationMap sp.applicationProperties).find?
        (fun kv => strContainsSub kv.1 "-in-") with
    | none =>
      rw [List.find?_eq_none] at hf
      exact absurd hin (by simpa using hf kv hmem)
    | some kv2 => rfl
  · intro hno
    unfold detectStorageAccountAccordingToSpringCloudStreamBinderMavenDependencyAndProperty
    rw [if_pos (by simp [hdep])]
    cases hf : (getBindingDestinationMap sp.applicationProperties).find?
        (fun kv => strContainsSub kv.1 "-in-") with
    | none => rfl
    | some kv2 =>
      have hp := List.find?_some hf
      exact absurd ⟨kv2, List.mem_of_find?_eq_some hf, by simpa using hp⟩ hno

/-- Leaf project of the C7 witness: declares the Event Hubs stream binder. -/
def c7MavenProject : mavenProject :=
  { Dependencies := [{ GroupId := "com.azure.spring",
                       ArtifactId := "spring-cloud-azure-stream-binder-eventhubs" }] }

/-- Configuration of the C7 witness: a consuming binding, a producing
binding, and the checkpoint-store container name. -/
def c7Props : List (String × String) :=
  [("spring.cloud.stream.bindings.consume-in-0.destination", "orders"),
   ("spring.cloud.stream.bindings.publish-out-0.destination", "orders-ack"),
   ("spring.cloud.azure.eventhubs.processor.checkpoint-store.container-name", "checkpoints")]

/-- Spring Boot context of the C7 witness. -/
def c7Sp : SpringBootProject :=
  { applicationProperties := c7Props, mavenProject := c7MavenProject }

/-- C7 witness: the theorem applied to the concrete scenario — the Event Hubs
names are the two distinct destinations and the `-in-` binding triggers the
storage requirement with the configured container name. -/
theorem c7_witness :
    (detectEventHubsAccordingToSpringCloudStreamBinderMavenDependency {} c7Sp).AzureDeps =
      [AzureDep.eventHubs ["orders", "orders-ack"] false ""] ∧
    (detectStorageAccountAccordingToSpringCloudStreamBinderMavenDependencyAndProperty
        {} c7Sp).AzureDeps =
      [AzureDep.storageAccount ["checkpoints"]] := by
  have h := c7_eventhubs_names_and_checkpoint_storage c7Sp {} (by decide)
  constructor
  · rw [h.1]
    decide
  · rw [h.2.2.2.1 ⟨("consume-in-0", "orders"), by decide, by decide⟩]
    decide

/-- Leaf project of the C3 counterexample: a Spring Boot project with the
Service Bus stream binder. -/
def c3MavenProject : mavenProject :=
  { Dependencies :=
      [{ GroupId := "org.springframework.boot", ArtifactId := "spring-boot-starter-web" },
       { GroupId := "com.azure.spring",
         ArtifactId := "spring-cloud-azure-stream-binder-servicebus" }] }

/-- One iteration order of the application-property map of the C3
counterexample. -/
def c3Props1 : List (String × String) :=
  [("spring.cloud.stream.bindings.alpha.destination", "queue-one"),
   ("spring.cloud.stream.bindings.beta.destination", "queue-two")]

/-- The other iteration order of the same application-property map. -/
def c3Props2 : List (String × String) :=
  [("spring.cloud.stream.bindings.beta.destination", "queue-two"),
   ("spring.cloud.stream.bindings.alpha.destination", "queue-one")]

/-- C3 counterexample: two runs of the classifier on the same project and the
same application-property map (the two entry lists are permutations of one
another, that is, the same Go map seen in two iteration orders) produce
different requirement records — the Queues lists of the Service Bus
requirement come out in different orders, so the produced requirements are
not equal across the two runs. -/
theorem c3_counterexample :
    List.Perm c3Props1 c3Props2 ∧
    detectAzureDependenciesByAnalyzingSpringBootProject c3Props1 none c3MavenProject {} ≠
      detectAzureDependenciesByAnalyzingSpringBootProject c3Props2 none c3MavenProject {} := by
  constructor
  · decide
  · decide

/-- Requirements equal up to the internal ordering of their destination-name
lists: same variant, same scalar fields, and the Queues/Names lists are
permutations of one another. -/
def azureDepSimilar : AzureDep → AzureDep → Prop
  | AzureDep.serviceBus q1 j1, AzureDep.serviceBus q2 j2 => j1 = j2 ∧ List.Perm q1 q2
  | AzureDep.eventHubs n1 k1 v1, AzureDep.eventHubs n2 k2 v2 =>
    k1 = k2 ∧ v1 = v2 ∧ List.Perm n1 n2
  | AzureDep.storageAccount c1, AzureDep.storageAccount c2 => c1 = c2
  | _, _ => False

/-- Project records equal in every field except that corresponding Azure
requirements may list their destination names in different orders. -/
def projectSimilar (p1 p2 : Project) : Prop :=
  p1.Language = p2.Language ∧ p1.Path = p2.Path ∧ p1.DetectionRule = p2.DetectionRule ∧
  p1.Dependencies = p2.Dependencies ∧ p1.DatabaseDeps = p2.DatabaseDeps ∧
  p1.Metadata = p2.Metadata ∧ List.Forall₂ azureDepSimilar p1.AzureDeps p2.AzureDeps

theorem azureDepSimilar_refl (d : AzureDep) : azureDepSimilar d d := by
  cases d with
  | serviceBus q j => exact ⟨rfl, List.Perm.refl q⟩
  | eventHubs n k v => exact ⟨rfl, rfl, List.Perm.refl n⟩
  | storageAccount c => rfl

theorem projectSimilar_refl (p : Project) : projectSimilar p p :=
  ⟨rfl, rfl, rfl, rfl, rfl, rfl,
    List.forall₂_same.mpr (fun d _ => azureDepSimilar_refl d)⟩

theorem projectSimilar_azure_append {p1 p2 : Project} {d1 d2 : AzureDep}
    (h : projectSimilar p1 p2) (hd : azureDepSimilar d1 d2) :
    projectSimilar { p1 with AzureDeps := p1.AzureDeps ++ [d1] }
      { p2 with AzureDeps := p2.AzureDeps ++ [d2] } := by
  obtain ⟨hL, hP, hD, hDep, hDb, hM, hA⟩ := h
  exact ⟨hL, hP, hD, hDep, hDb, hM,
    List.rel_append hA (List.Forall₂.cons hd List.Forall₂.nil)⟩

theorem projectSimilar_set_db {p1 p2 : Project} (h : projectSimilar p1 p2) (s : List String) :
    projectSimilar { p1 with DatabaseDeps := s } { p2 with DatabaseDeps := s } := by
  obtain ⟨hL, hP, hD, hDep, hDb, hM, hA⟩ := h
  exact ⟨hL, hP, hD, hDep, rfl, hM, hA⟩

theorem projectSimilar_set_meta {p1 p2 : Project} (h : projectSimilar p1 p2)
    (m : ProjectMetadata) :
    projectSimilar { p1 with Metadata := m } { p2 with Metadata := m } := by
  obtain ⟨hL, hP, hD, hDep, hDb, hM, hA⟩ := h
  exact ⟨hL, hP, hD, hDep, hDb, rfl, hA⟩

theorem projectSimilar_dep_append {p1 p2 : Project} (h : projectSimilar p1 p2)
    (t : ProjectDependency) :
    projectSimilar { p1 with Dependencies := p1.Dependencies ++ [t] }
      { p2 with Dependencies := p2.Dependencies ++ [t] } := by
  obtain ⟨hL, hP, hD, hDep, hDb, hM, hA⟩ := h
  exact ⟨hL, hP, hD, by rw [hDep], hDb, hM, hA⟩

theorem lookupEntries_perm {e1 e2 : List (String × String)} (hperm : List.Perm e1 e2) :
    (e1.map Prod.fst).Nodup → ∀ k, lookupEntries e1 k = lookupEntries e2 k := by
  induction hperm with
  | nil => intro _ k; rfl
  | cons x hp ih =>
    intro hnd k
    simp only [List.map_cons, List.nodup_cons] at hnd
    by_cases hx : x.1 = k
    · simp only [lookupEntries, if_pos hx]
    · simp only [lookupEntries, if_neg hx]
      exact ih hnd.2 k
  | swap x y l =>
    intro hnd k
    simp only [List.map_cons, List.nodup_cons, List.mem_cons, not_or] at hnd
    by_cases hy : y.1 = k
    · by_cases hx : x.1 = k
      · exact absurd (hy.trans hx.symm) hnd.1.1
      · simp only [lookupEntries, if_pos hy, if_neg hx]
    · by_cases hx : x.1 = k
      · simp only [lookupEntries, if_pos hx, if_neg hy]
      · simp only [lookupEntries, if_neg hx, if_neg hy]
  | trans h1 h2 ih1 ih2 =>
    intro hnd k
    rw [ih1 hnd k, ih2 (((h1.map Prod.fst).nodup_iff).mp hnd) k]

theorem distinctValues_perm {e1 e2 : List (String × String)} (hperm : List.Perm e1 e2) :
    List.Perm (distinctValues e1) (distinctValues e2) := by
  rw [List.perm_ext_iff_of_nodup (distinctValues_nodup e1) (distinctValues_nodup e2)]
  intro a
  rw [distinctValues_mem, distinctValues_mem]
  exact (hperm.map Prod.snd).mem_iff

theorem hasDependency_congr {sp1 sp2 : SpringBootProject}
    (hmv : sp1.mavenProject = sp2.mavenProject) (g a : String) :
    hasDependency sp1 g a = hasDependency sp2 g a := by
  unfold hasDependency
  rw [hmv]

theorem detectDatabases_similar {sp1 sp2 : SpringBootProject}
    (hmv : sp1.mavenProject = sp2.mavenProject)
    {p1 p2 : Project} (h : projectSimilar p1 p2) :
    projectSimilar (detectDatabases p1 sp1) (detectDatabases p2 sp2) := by
  unfold detectDatabases
  have hrm : (fun (acc : List String) rule =>
      if ruleMatches sp1 rule then acc ++ [rule.databaseDep] else acc) =
      (fun (acc : List String) rule =>
        if ruleMatches sp2 rule then acc ++ [rule.databaseDep] else acc) := by
    funext acc rule
    unfold ruleMatches
    rw [show (fun t : MavenDependency => hasDependency sp1 t.groupId t.artifactId) =
        (fun t : MavenDependency => hasDependency sp2 t.groupId t.artifactId) from
      funext (fun t => hasDependency_congr hmv t.groupId t.artifactId)]
  rw [hrm]
  by_cases hempty :
      databaseDependencyRules.foldl
        (fun acc rule => if ruleMatches sp2 rule then acc ++ [rule.databaseDep] else acc) [] = []
  · rw [if_pos hempty, if_pos hempty]
    exact h
  · rw [if_neg hempty, if_neg hempty]
    exact projectSimilar_set_db h _

theorem detectServiceBus_similar {sp1 sp2 : SpringBootProject}
    (hmv : sp1.mavenProject = sp2.mavenProject)
    (hprops : List.Perm sp1.applicationProperties sp2.applicationProperties)
    {p1 p2 : Project} (h : projectSimilar p1 p2) :
    projectSimilar (detectServiceBus p1 sp1) (detectServiceBus p2 sp2) := by
  unfold detectServiceBus
    detectServiceBusAccordingToJMSMavenDependency
    detectServiceBusAccordingToSpringCloudStreamBinderMavenDependency
  rw [hasDependency_congr hmv "com.azure.spring" "spring-cloud-azure-starter-servicebus-jms",
    hasDependency_congr hmv "com.azure.spring" "spring-cloud-azure-stream-binder-servicebus"]
  have hq : azureDepSimilar
      (AzureDep.serviceBus (distinctValues (getBindingDestinationMap sp1.applicationProperties))
        false)
      (AzureDep.serviceBus (distinctValues (getBindingDestinationMap sp2.applicationProperties))
        false) :=
    ⟨rfl, distinctValues_perm (hprops.filterMap _)⟩
  by_cases hjms : hasDependency sp2 "com.azure.spring" "spring-cloud-azure-starter-servicebus-jms"
  · rw [if_pos hjms, if_pos hjms]
    by_cases hsb :
        hasDependency sp2 "com.azure.spring" "spring-cloud-azure-stream-binder-servicebus"
    · rw [if_pos hsb, if_pos hsb]
      exact projectSimilar_azure_append
        (projectSimilar_azure_append h ⟨rfl, List.Perm.refl _⟩) hq
    · rw [if_neg hsb, if_neg hsb]
      exact projectSimilar_azure_append h ⟨rfl, List.Perm.refl _⟩
  · rw [if_neg hjms, if_neg hjms]
    by_cases hsb :
        hasDependency sp2 "com.azure.spring" "spring-cloud-azure-stream-binder-servicebus"
    · rw [if_pos hsb, if_pos hsb]
      exact projectSimilar_azure_append h hq
    · rw [if_neg hsb, if_neg hsb]
      exact h

theorem detectEventHubs_similar {sp1 sp2 : SpringBootProject}
    (hmv : sp1.mavenProject = sp2.mavenProject)
    (hv : sp1.springBootVersion = sp2.springBootVersion)
    (hprops : List.Perm sp1.applicationProperties sp2.applicationProperties)
    {p1 p2 : Project} (h : projectSimilar p1 p2) :
    projectSimilar (detectEventHubs p1 sp1) (detectEventHubs p2 sp2) := by
  unfold detectEventHubs
    detectEventHubsAccordingToSpringCloudStreamBinderMavenDependency
    detectEventHubsAccordingToSpringCloudStreamKafkaMavenDependency
  rw [hasDependency_congr hmv "com.azure.spring" "spring-cloud-azure-stream-binder-eventhubs",
    hasDependency_congr hmv "org.springframework.cloud" "spring-cloud-starter-stream-kafka", hv]
  have hperm2 := distinctValues_perm (hprops.filterMap
    (fun kv => if matchesBindingKey kv.1 then some (bindingNameOf kv.1, kv.2) else none))
  by_cases hb : hasDependency sp2 "com.azure.spring" "spring-cloud-azure-stream-binder-eventhubs"
  · rw [if_pos hb, if_pos hb]
    by_cases hk : hasDependency sp2 "org.springframework.cloud" "spring-cloud-starter-stream-kafka"
    · rw [if_pos hk, if_pos hk]
      exact projectSimilar_azure_append
        (projectSimilar_azure_append h ⟨rfl, rfl, hperm2⟩) ⟨rfl, rfl, hperm2⟩
    · rw [if_neg hk, if_neg hk]
      exact projectSimilar_azure_append h ⟨rfl, rfl, hperm2⟩
  · rw [if_neg hb, if_neg hb]
    by_cases hk : hasDependency sp2 "org.springframework.cloud" "spring-cloud-starter-stream-kafka"
    · rw [if_pos hk, if_pos hk]
      exact projectSimilar_azure_append h ⟨rfl, rfl, hperm2⟩
    · rw [if_neg hk, if_neg hk]
      exact h

theorem detectStorageAccount_similar {sp1 sp2 : SpringBootProject}
    (hmv : sp1.mavenProject = sp2.mavenProject)
    (hprops : List.Perm sp1.applicationProperties sp2.applicationProperties)
    (hnd : (sp1.applicationProperties.map Prod.fst).Nodup)
    {p1 p2 : Project} (h : projectSimilar p1 p2) :
    projectSimilar (detectStorageAccount p1 sp1) (detectStorageAccount p2 sp2) := by
  unfold detectStorageAccount
    detectStorageAccountAccordingToSpringCloudStreamBinderMavenDependencyAndProperty
  rw [hasDependency_congr hmv "com.azure.spring" "spring-cloud-azure-stream-binder-eventhubs"]
  by_cases hb : hasDependency sp2 "com.azure.spring" "spring-cloud-azure-stream-binder-eventhubs"
  · rw [if_pos hb, if_pos hb]
    have hbp : List.Perm (getBindingDestinationMap sp1.applicationProperties)
        (getBindingDestinationMap sp2.applicationProperties) := hprops.filterMap _
    have hlook : lookupEntriesD sp1.applicationProperties checkpointContainerKey =
        lookupEntriesD sp2.applicationProperties checkpointContainerKey := by
      unfold lookupEntriesD
      rw [lookupEntries_perm hprops hnd checkpointContainerKey]
    cases hf1 : (getBindingDestinationMap sp1.applicationProperties).find?
        (fun kv => strContainsSub kv.1 "-in-") with
    | none =>
      cases hf2 : (getBindingDestinationMap sp2.applicationProperties).find?
          (fun kv => strContainsSub kv.1 "-in-") with
      | none => exact h
      | some kv2 =>
        rw [List.find?_eq_none] at hf1
        have hmem2 := List.mem_of_find?_eq_some hf2
        have := hf1 kv2 (hbp.mem_iff.mpr hmem2)
        exact absurd (List.find?_some hf2) (by simpa using this)
    | some kv1 =>
      cases hf2 : (getBindingDestinationMap sp2.applicationProperties).find?
          (fun kv => strContainsSub kv.1 "-in-") with
      | none =>
        rw [List.find?_eq_none] at hf2
        have hmem1 := List.mem_of_find?_eq_some hf1
        have := hf2 kv1 (hbp.mem_iff.mp hmem1)
        exact absurd (List.find?_some hf1) (by simpa using this)
      | some kv2 =>
        rw [hlook]
        exact projectSimilar_azure_append h rfl
  · rw [if_neg hb, if_neg hb]
    exact h

theorem projectSimilar_meta_update {p1 p2 : Project} (h : projectSimilar p1 p2)
    (f : ProjectMetadata → ProjectMetadata) :
    projectSimilar { p1 with Metadata := f p1.Metadata }
      { p2 with Metadata := f p2.Metadata } := by
  obtain ⟨hL, hP, hD, hDep, hDb, hM, hA⟩ := h
  exact ⟨hL, hP, hD, hDep, hDb, by rw [hM], hA⟩

theorem detectMetadata_similar {sp1 sp2 : SpringBootProject}
    (hmv : sp1.mavenProject = sp2.mavenProject)
    (hprops : List.Perm sp1.applicationProperties sp2.applicationProperties)
    (hnd : (sp1.applicationProperties.map Prod.fst).Nodup)
    {p1 p2 : Project} (h : projectSimilar p1 p2) :
    projectSimilar (detectMetadata p1 sp1) (detectMetadata p2 sp2) := by
  have hlook := lookupEntries_perm hprops hnd
  have happ : ∀ {q1 q2 : Project}, projectSimilar q1 q2 →
      projectSimilar (detectPropertySpringApplicationName q1 sp1)
        (detectPropertySpringApplicationName q2 sp2) := by
    intro q1 q2 hq
    unfold detectPropertySpringApplicationName
    rw [hlook "spring.application.name"]
    cases lookupEntries sp2.applicationProperties "spring.application.name" with
    | some appName => exact projectSimilar_meta_update hq (fun m => { m with ApplicationName := appName })
    | none => exact hq
  have hurl : ∀ {q1 q2 : Project}, projectSimilar q1 q2 →
      projectSimilar (detectPropertySpringDatasourceUrl q1 sp1)
        (detectPropertySpringDatasourceUrl q2 sp2) := by
    intro q1 q2 hq
    unfold detectPropertySpringDatasourceUrl
    rw [hlook "spring.datasource.url"]
    cases lookupEntries sp2.applicationProperties "spring.datasource.url" with
    | none => exact hq
    | some propertyValue =>
      simp only []
      obtain ⟨hL, hP, hD, hDep, hDb, hM, hA⟩ := hq
      by_cases hdb : getDatabaseName propertyValue = ""
      · rw [if_pos hdb, if_pos hdb]
        exact ⟨hL, hP, hD, hDep, hDb, hM, hA⟩
      · rw [if_neg hdb, if_neg hdb]
        by_cases hpg : strStartsWith propertyValue "jdbc:postgresql" = true
        · rw [if_pos hpg, if_pos hpg]
          exact projectSimilar_meta_update ⟨hL, hP, hD, hDep, hDb, hM, hA⟩
            (fun m => { m with DatabaseNameInPropertySpringDatasourceUrl := insertDbName m.DatabaseNameInPropertySpringDatasourceUrl DbPostgres (getDatabaseName propertyValue) })
        · rw [if_neg hpg, if_neg hpg]
          by_cases hmy : strStartsWith propertyValue "jdbc:mysql" = true
          · rw [if_pos hmy, if_pos hmy]
            exact projectSimilar_meta_update ⟨hL, hP, hD, hDep, hDb, hM, hA⟩
              (fun m => { m with DatabaseNameInPropertySpringDatasourceUrl := insertDbName m.DatabaseNameInPropertySpringDatasourceUrl DbMySql (getDatabaseName propertyValue) })
          · rw [if_neg hmy, if_neg hmy]
            exact ⟨hL, hP, hD, hDep, hDb, hM, hA⟩
  have hflag : ∀ (g a : String) (f : ProjectMetadata → ProjectMetadata) {q1 q2 : Project},
      projectSimilar q1 q2 →
      projectSimilar (if hasDependency sp1 g a then { q1 with Metadata := f q1.Metadata } else q1)
        (if hasDependency sp2 g a then { q2 with Metadata := f q2.Metadata } else q2) := by
    intro g a f q1 q2 hq
    rw [hasDependency_congr hmv g a]
    by_cases hc : hasDependency sp2 g a
    · rw [if_pos hc, if_pos hc]
      exact projectSimilar_meta_update hq f
    · rw [if_neg hc, if_neg hc]
      exact hq
  apply show ∀ {q1 q2 : Project}, projectSimilar q1 q2 →
      projectSimilar (detectDependencySpringCloudConfig q1 sp1)
        (detectDependencySpringCloudConfig q2 sp2) from ?hconfig
  case hconfig =>
    intro q1 q2 hq
    unfold detectDependencySpringCloudConfig
    exact hflag "org.springframework.cloud" "spring-cloud-starter-config"
      (fun m => { m with ContainsDependencySpringCloudConfigClient := true })
      (hflag "org.springframework.cloud" "spring-cloud-config-server"
        (fun m => { m with ContainsDependencySpringCloudConfigServer := true }) hq)
  apply show ∀ {q1 q2 : Project}, projectSimilar q1 q2 →
      projectSimilar (detectDependencySpringCloudEureka q1 sp1)
        (detectDependencySpringCloudEureka q2 sp2) from ?heureka
  case heureka =>
    intro q1 q2 hq
    unfold detectDependencySpringCloudEureka
    exact hflag "org.springframework.cloud" "spring-cloud-starter-netflix-eureka-client"
      (fun m => { m with ContainsDependencySpringCloudEurekaClient := true })
      (hflag "org.springframework.cloud" "spring-cloud-starter-netflix-eureka-server"
        (fun m => { m with ContainsDependencySpringCloudEurekaServer := true }) hq)
  apply show ∀ {q1 q2 : Project}, projectSimilar q1 q2 →
      projectSimilar (detectDependencySpringCloudAzureStarterJdbcMysql q1 sp1)
        (detectDependencySpringCloudAzureStarterJdbcMysql q2 sp2) from ?hjm
  case hjm =>
    intro q1 q2 hq
    unfold detectDependencySpringCloudAzureStarterJdbcMysql
    exact hflag "com.azure.spring" "spring-cloud-azure-starter-jdbc-mysql"
      (fun m => { m with ContainsDependencySpringCloudAzureStarterJdbcMysql := true }) hq
  apply show ∀ {q1 q2 : Project}, projectSimilar q1 q2 →
      projectSimilar (detectDependencySpringCloudAzureStarterJdbcPostgresql q1 sp1)
        (detectDependencySpringCloudAzureStarterJdbcPostgresql q2 sp2) from ?hjp
  case hjp =>
    intro q1 q2 hq
    unfold detectDependencySpringCloudAzureStarterJdbcPostgresql
    exact hflag "com.azure.spring" "spring-cloud-azure-starter-jdbc-postgresql"
      (fun m => { m with ContainsDependencySpringCloudAzureStarterJdbcPostgresql := true }) hq
  apply show ∀ {q1 q2 : Project}, projectSimilar q1 q2 →
      projectSimilar (detectDependencySpringCloudAzureStarter q1 sp1)
        (detectDependencySpringCloudAzureStarter q2 sp2) from ?has
  case has =>
    intro q1 q2 hq
    unfold detectDependencySpringCloudAzureStarter
    exact hflag "com.azure.spring" "spring-cloud-azure-starter"
      (fun m => { m with ContainsDependencySpringCloudAzureStarter := true }) hq
  exact hurl (happ h)

theorem detectSpringFrontend_similar {sp1 sp2 : SpringBootProject}
    (hmv : sp1.mavenProject = sp2.mavenProject)
    {p1 p2 : Project} (h : projectSimilar p1 p2) :
    projectSimilar (detectSpringFrontend p1 sp1) (detectSpringFrontend p2 sp2) := by
  unfold detectSpringFrontend
  rw [hmv]
  by_cases hc : sp2.mavenProject.Build.Plugins.any
      (fun p => p.GroupId == "com.github.eirslett" && p.ArtifactId == "frontend-maven-plugin")
  · rw [if_pos hc, if_pos hc]
    exact projectSimilar_dep_append h ProjectDependency.springFrontend
  · rw [if_neg hc, if_neg hc]
    exact h

set_option maxHeartbeats 2000000 in
/-- C3 amended: for a fixed Maven project and a fixed application-property
mapping, two runs of `detectAzureDependenciesByAnalyzingSpringBootProject`
 — whose property-map iteration orders are any two enumerations (permutations
with distinct keys) of the same map — produce the same project record up to
the ordering INSIDE the destination-name lists: every field (databases,
metadata, framework dependencies) is equal, and the Azure requirements
correspond one to one with equal scalar fields and destination-name lists
(Queues, Names) that are permutations of one another (equal as sets, each
without duplicates); the lists' internal order, however, is not guaranteed
to coincide. -/
theorem c3_classifier_deterministic_up_to_order (mp : mavenProject)
    (parentProject : Option mavenProject) (azdProject : Project)
    (e1 e2 : List (String × String)) (hperm : List.Perm e1 e2)
    (hnd : (e1.map Prod.fst).Nodup) :
    projectSimilar
      (detectAzureDependenciesByAnalyzingSpringBootProject e1 parentProject mp azdProject)
      (detectAzureDependenciesByAnalyzingSpringBootProject e2 parentProject mp azdProject) := by
  unfold detectAzureDependenciesByAnalyzingSpringBootProject
  by_cases hs : isSpringBootApplication mp
  · rw [if_pos hs, if_pos hs]
    refine detectSpringFrontend_similar ?_
      (detectMetadata_similar ?_ hperm hnd
        (detectStorageAccount_similar ?_ hperm hnd
          (detectEventHubs_similar ?_ ?_ hperm
            (detectServiceBus_similar ?_ hperm
              (detectDatabases_similar ?_ (projectSimilar_refl azdProject)))))) <;> rfl
  · rw [if_neg hs, if_neg hs]
    exact projectSimilar_refl azdProject

/-- C3 witness: the amended theorem applied to the two concrete iteration
orders of the same property map used in the counterexample. -/
theorem c3_amended_witness :
    List.Perm c3Props1 c3Props2 ∧
    projectSimilar
      (detectAzureDependenciesByAnalyzingSpringBootProject c3Props1 none c3MavenProject {})
      (detectAzureDependenciesByAnalyzingSpringBootProject c3Props2 none c3MavenProject {}) :=
  ⟨by decide,
    c3_classifier_deterministic_up_to_order c3MavenProject none {} c3Props1 c3Props2
      (by decide) (by decide)⟩

theorem applyEntries_append (a b : List (String × String)) :
    ∀ m : PropsMap, applyEntries m (a ++ b) = applyEntries (applyEntries m a) b := by
  induction a with
  | nil => intro m; rfl
  | cons e rest ih =>
    intro m
    simp only [List.cons_append, applyEntries]
    exact ih (insertProp m e.1 e.2)

theorem applyEntries_lookup (es : List (String × String)) :
    ∀ (m : PropsMap) (k : String),
      applyEntries m es k =
        match lastBinding es k with
        | some v => some v
        | none => m k := by
  induction es with
  | nil => intro m k; rfl
  | cons e rest ih =>
    intro m k
    simp only [applyEntries, lastBinding]
    rw [ih]
    cases lastBinding rest k with
    | some v => rfl
    | none =>
      by_cases he : e.1 = k
      · rw [if_pos he]
        simp only [insertProp, if_pos he.symm]
      · rw [if_neg he]
        simp only [insertProp]
        rw [if_neg (fun hk => he hk.symm)]

theorem readProfileProperties_eq (fs : FileSys) (projectPath profile : String)
    (base : PropsMap) :
    readProfileProperties fs projectPath profile base =
      applyEntries base (profileEntries fs projectPath profile) := by
  unfold readProfileProperties profileEntries readPropertiesInPropertiesFile
    readPropertiesInYamlFile
  rw [applyEntries_append, applyEntries_append]
  cases fs.propsFile
      (pJoin projectPath ("src/main/resources/application-" ++ profile ++ ".properties")) with
  | none =>
    cases fs.yamlFile
        (pJoin projectPath ("src/main/resources/application-" ++ profile ++ ".yml")) with
    | none =>
      cases fs.yamlFile
          (pJoin projectPath ("src/main/resources/application-" ++ profile ++ ".yaml")) with
      | none => rfl
      | some root => rfl
    | some root =>
      cases fs.yamlFile
          (pJoin projectPath ("src/main/resources/application-" ++ profile ++ ".yaml")) with
      | none => rfl
      | some root2 => rfl
  | some lines =>
    cases fs.yamlFile
        (pJoin projectPath ("src/main/resources/application-" ++ profile ++ ".yml")) with
    | none =>
      cases fs.yamlFile
          (pJoin projectPath ("src/main/resources/application-" ++ profile ++ ".yaml")) with
      | none => rfl
      | some root => rfl
    | some root =>
      cases fs.yamlFile
          (pJoin projectPath ("src/main/resources/application-" ++ profile ++ ".yaml")) with
      | none => rfl
      | some root2 => rfl

/-- C8: `readProperties` first merges the three base configuration files;
exactly when the merged base mapping carries `spring.profiles.active` with
some value `p` it additionally merges the profile-suffixed variants
(`application-p.properties` / `.yml` / `.yaml`), with profile values
overriding base values for the same key (a key the profile files do not bind
keeps its base value); and a configuration file that does not exist
contributes no entries and causes no error. -/
theorem c8_read_properties_profile_merge (fs : FileSys) (projectPath : String) :
    (readBaseProperties fs projectPath activeProfileKey = none →
      readProperties fs projectPath = readBaseProperties fs projectPath) ∧
    (∀ profile, readBaseProperties fs projectPath activeProfileKey = some profile →
      (∀ k v, lastBinding (profileEntries fs projectPath profile) k = some v →
        readProperties fs projectPath k = some v) ∧
      (∀ k, lastBinding (profileEntries fs projectPath profile) k = none →
        readProperties fs projectPath k = readBaseProperties fs projectPath k)) ∧
    (∀ (q : String) (m : PropsMap),
      (fs.propsFile q = none → readPropertiesInPropertiesFile fs q m = m) ∧
      (fs.yamlFile q = none → readPropertiesInYamlFile fs q m = m)) := by
  refine ⟨?_, ?_, ?_⟩
  · intro h
    unfold readProperties
    rw [h]
  · intro profile hp
    have hr : readProperties fs projectPath =
        applyEntries (readBaseProperties fs projectPath)
          (profileEntries fs projectPath profile) := by
      unfold readProperties
      rw [hp]
      exact readProfileProperties_eq fs projectPath profile _
    constructor
    · intro k v hk
      rw [hr, applyEntries_lookup, hk]
    · intro k hk
      rw [hr, applyEntries_lookup, hk]
  · intro q m
    constructor
    · intro h
      unfold readPropertiesInPropertiesFile
      rw [h]
    · intro h
      unfold readPropertiesInYamlFile
      rw [h]

/-- Base application.yml of the C8 witness: `server: \n  port: 8080`. -/
def c8Yml : YamlNode :=
  YamlNode.node YamlKind.document ""
    [YamlNode.node YamlKind.mapping ""
      [YamlNode.node YamlKind.scalar "server" [],
       YamlNode.node YamlKind.mapping ""
         [YamlNode.node YamlKind.scalar "port" [],
          YamlNode.node YamlKind.scalar "8080" []]]]

/-- Configuration file system of the C8 witness: a base properties file that
activates the `dev` profile, a base yml file, a `dev` profile properties file
overriding one key, and no other files. -/
def c8Fs : FileSys :=
  { propsFile := fun p =>
      if p = "/app/src/main/resources/application.properties" then
        some ["spring.profiles.active=dev", "shared.key = base", "# a comment", "base.only=1"]
      else if p = "/app/src/main/resources/application-dev.properties" then
        some ["shared.key = dev"]
      else none,
    yamlFile := fun p =>
      if p = "/app/src/main/resources/application.yml" then some c8Yml else none }

/-- C8 witness: the theorem applied to the concrete file system — the profile
value overrides the base value for `shared.key`, base-only keys (from the
properties file and the yml file) survive, and the missing `.yaml` file
contributes nothing. -/
theorem c8_witness :
    readProperties c8Fs "/app" "shared.key" = some "dev" ∧
    readProperties c8Fs "/app" "base.only" = some "1" ∧
    readProperties c8Fs "/app" "server.port" = some "8080" := by
  have h := (c8_read_properties_profile_merge c8Fs "/app").2.1 "dev" (by decide)
  refine ⟨h.1 "shared.key" "dev" (by decide), ?_, ?_⟩
  · rw [h.2 "base.only" (by decide)]
    decide
  · rw [h.2 "server.port" (by decide)]
    decide

/-- Does the character list contain an adjacent placeholder opener
(dollar immediately followed by an opening brace)? -/
def hasPlaceholderOpen : List Char → Bool
  | [] => false
  | c1 :: rest =>
    match rest with
    | c2 :: _ => (c1 == dollarChar && c2 == lbraceChar) || hasPlaceholderOpen rest
    | [] => false

/-- Fuel-driven scan for a placeholder occurrence whose name is in the
mapping; scans exactly like `substGo`. -/
def hasMappedGo (props : String → Option String) (fuel : Nat) (l : List Char) : Bool :=
  match l with
  | [] => false
  | [_] => false
  | c1 :: c2 :: rest =>
    match fuel with
    | 0 => false
    | Nat.succ f =>
      if c1 = dollarChar ∧ c2 = lbraceChar then
        match splitAtChar rbraceChar rest with
        | some (nm, after) => (props (String.mk nm)).isSome || hasMappedGo props f after
        | none => false
      else hasMappedGo props f (c2 :: rest)

theorem hasMappedGo_fuel (props : String → Option String) :
    ∀ (n m : Nat) (l : List Char), l.length ≤ n → l.length ≤ m →
      hasMappedGo props n l = hasMappedGo props m l := by
  intro n
  induction n with
  | zero =>
    intro m l hn hm
    match l with
    | [] => cases m <;> rfl
    | [c] => cases m <;> rfl
    | c1 :: c2 :: rest => simp at hn
  | succ f ih =>
    intro m l hn hm
    match l with
    | [] => cases m <;> rfl
    | [c] => cases m <;> rfl
    | c1 :: c2 :: rest =>
      match m with
      | 0 => simp at hm
      | Nat.succ g =>
        simp only [hasMappedGo]
        by_cases hc : c1 = dollarChar ∧ c2 = lbraceChar
        · rw [if_pos hc, if_pos hc]
          cases hsp : splitAtChar rbraceChar rest with
          | none => rfl
          | some p =>
            obtain ⟨nm, after⟩ := p
            have hlt := splitAtChar_length rbraceChar rest nm after hsp
            simp only [List.length_cons] at hn hm
            simp only []
            rw [ih g after (by omega) (by omega)]
        · rw [if_neg hc, if_neg hc]
          simp only [List.length_cons] at hn hm
          rw [ih g (c2 :: rest) (by simp only [List.length_cons]; omega)
            (by simp only [List.length_cons]; omega)]

/-- Does the character list contain a placeholder occurrence whose name is in
the mapping? Scans exactly like `substChars`. -/
def hasMappedPlaceholder (props : String → Option String) (l : List Char) : Bool :=
  hasMappedGo props l.length l

theorem hasMappedPlaceholder_cons_cons (props : String → Option String) (c1 c2 : Char)
    (rest : List Char) :
    hasMappedPlaceholder props (c1 :: c2 :: rest) =
      if c1 = dollarChar ∧ c2 = lbraceChar then
        match splitAtChar rbraceChar rest with
        | some (nm, after) =>
          (props (String.mk nm)).isSome || hasMappedGo props (rest.length + 1) after
        | none => false
      else hasMappedPlaceholder props (c2 :: rest) := rfl

theorem substChars_cons_cons (props : String → Option String) (c1 c2 : Char)
    (rest : List Char) :
    substChars props (c1 :: c2 :: rest) =
      if c1 = dollarChar ∧ c2 = lbraceChar then
        match splitAtChar rbraceChar rest with
        | some (nm, after) =>
          (match props (String.mk nm) with
           | some v => v.data
           | none => c1 :: c2 :: (nm ++ [rbraceChar])) ++ substGo props (rest.length + 1) after
        | none => c1 :: c2 :: rest
      else c1 :: substChars props (c2 :: rest) := rfl

theorem substChars_two_noph (props : String → Option String) (c1 c2 : Char)
    (rest : List Char) (hc : ¬(c1 = dollarChar ∧ c2 = lbraceChar)) :
    substChars props (c1 :: c2 :: rest) = c1 :: substChars props (c2 :: rest) := by
  rw [substChars_cons_cons, if_neg hc]

theorem substChars_two_ph_some (props : String → Option String) (c1 c2 : Char)
    (rest nm after : List Char) (hc : c1 = dollarChar ∧ c2 = lbraceChar)
    (hsp : splitAtChar rbraceChar rest = some (nm, after)) :
    substChars props (c1 :: c2 :: rest) =
      (match props (String.mk nm) with
       | some v => v.data
       | none => c1 :: c2 :: (nm ++ [rbraceChar])) ++ substChars props after := by
  rw [substChars_cons_cons, if_pos hc]
  split
  · rename_i nm2 after2 heq
    rw [hsp] at heq
    simp only [Option.some.injEq, Prod.mk.injEq] at heq
    obtain ⟨h1, h2⟩ := heq
    subst h1; subst h2
    have hlt := splitAtChar_length rbraceChar rest nm after hsp
    show _ = _ ++ substGo props after.length after
    rw [substGo_fuel props (rest.length + 1) after.length after (by omega) (Nat.le_refl _)]
  · rename_i heq
    rw [hsp] at heq
    simp at heq

theorem substChars_two_ph_none (props : String → Option String) (c1 c2 : Char)
    (rest : List Char) (hc : c1 = dollarChar ∧ c2 = lbraceChar)
    (hsp : splitAtChar rbraceChar rest = none) :
    substChars props (c1 :: c2 :: rest) = c1 :: c2 :: rest := by
  rw [substChars_cons_cons, if_pos hc]
  split
  · rename_i nm2 after2 heq
    rw [hsp] at heq
    simp at heq
  · rfl

theorem hasMappedPlaceholder_two_noph (props : String → Option String) (c1 c2 : Char)
    (rest : List Char) (hc : ¬(c1 = dollarChar ∧ c2 = lbraceChar)) :
    hasMappedPlaceholder props (c1 :: c2 :: rest) =
      hasMappedPlaceholder props (c2 :: rest) := by
  rw [hasMappedPlaceholder_cons_cons, if_neg hc]

theorem hasMappedPlaceholder_two_ph_some (props : String → Option String) (c1 c2 : Char)
    (rest nm after : List Char) (hc : c1 = dollarChar ∧ c2 = lbraceChar)
    (hsp : splitAtChar rbraceChar rest = some (nm, after)) :
    hasMappedPlaceholder props (c1 :: c2 :: rest) =
      ((props (String.mk nm)).isSome || hasMappedPlaceholder props after) := by
  rw [hasMappedPlaceholder_cons_cons, if_pos hc]
  split
  · rename_i nm2 after2 heq
    rw [hsp] at heq
    simp only [Option.some.injEq, Prod.mk.injEq] at heq
    obtain ⟨h1, h2⟩ := heq
    subst h1; subst h2
    have hlt := splitAtChar_length rbraceChar rest nm after hsp
    show ((props (String.mk nm)).isSome || hasMappedGo props (rest.length + 1) after) =
      ((props (String.mk nm)).isSome || hasMappedGo props after.length after)
    rw [hasMappedGo_fuel props (rest.length + 1) after.length after (by omega) (Nat.le_refl _)]
  · rename_i heq
    rw [hsp] at heq
    simp at heq

theorem substChars_of_no_mapped_aux (props : String → Option String) :
    ∀ (n : Nat) (l : List Char), l.length ≤ n →
      hasMappedPlaceholder props l = false → substChars props l = l := by
  intro n
  induction n with
  | zero =>
    intro l hlen _
    have : l = [] := List.eq_nil_of_length_eq_zero (Nat.le_zero.mp hlen)
    subst this
    rfl
  | succ n ih =>
    intro l hlen hno
    match l with
    | [] => rfl
    | [c] => rfl
    | c1 :: c2 :: rest =>
      by_cases hc : c1 = dollarChar ∧ c2 = lbraceChar
      · cases hsp : splitAtChar rbraceChar rest with
        | none => exact substChars_two_ph_none props c1 c2 rest hc hsp
        | some p =>
          obtain ⟨nm, after⟩ := p
          rw [hasMappedPlaceholder_two_ph_some props c1 c2 rest nm after hc hsp] at hno
          rw [Bool.or_eq_false_iff] at hno
          obtain ⟨hnone, hafter⟩ := hno
          have hpn : props (String.mk nm) = none := by
            cases hp : props (String.mk nm) with
            | none => rfl
            | some v => rw [hp] at hnone; simp at hnone
          rw [substChars_two_ph_some props c1 c2 rest nm after hc hsp, hpn]
          obtain ⟨hrest, -⟩ := splitAtChar_eq rbraceChar rest nm after hsp
          have hlen2 : after.length ≤ n := by
            have := splitAtChar_length rbraceChar rest nm after hsp
            simp only [List.length_cons] at hlen
            omega
          rw [ih after hlen2 hafter, hrest]
          simp
      · rw [hasMappedPlaceholder_two_noph props c1 c2 rest hc] at hno
        rw [substChars_two_noph props c1 c2 rest hc]
        rw [ih (c2 :: rest) (by simp only [List.length_cons] at hlen ⊢; omega) hno]

theorem substChars_of_no_mapped (props : String → Option String) (l : List Char)
    (hno : hasMappedPlaceholder props l = false) : substChars props l = l :=
  substChars_of_no_mapped_aux props l.length l (Nat.le_refl _) hno

theorem hasMappedPlaceholder_of_no_open (props : String → Option String) :
    ∀ (n : Nat) (l : List Char), l.length ≤ n →
      hasPlaceholderOpen l = false → hasMappedPlaceholder props l = false := by
  intro n
  induction n with
  | zero =>
    intro l hlen _
    have : l = [] := List.eq_nil_of_length_eq_zero (Nat.le_zero.mp hlen)
    subst this
    rfl
  | succ n ih =>
    intro l hlen hno
    match l with
    | [] => rfl
    | [c] => rfl
    | c1 :: c2 :: rest =>
      rw [hasPlaceholderOpen] at hno
      simp only [Bool.or_eq_false_iff] at hno
      obtain ⟨hpair, htail⟩ := hno
      have hc : ¬(c1 = dollarChar ∧ c2 = lbraceChar) := by
        intro hcc
        rw [hcc.1, hcc.2] at hpair
        simp at hpair
      rw [hasMappedPlaceholder_two_noph props c1 c2 rest hc]
      exact ih (c2 :: rest) (by simp only [List.length_cons] at hlen ⊢; omega) htail

theorem substChars_leftmost (props : String → Option String) :
    ∀ (a : List Char), hasPlaceholderOpen a = false → ∀ (nm b : List Char), rbraceChar ∉ nm →
      substChars props (a ++ dollarChar :: lbraceChar :: (nm ++ rbraceChar :: b)) =
        a ++ ((match props (String.mk nm) with
               | some v => v.data
               | none => dollarChar :: lbraceChar :: (nm ++ [rbraceChar])) ++
          substChars props b) := by
  intro a
  induction a with
  | nil =>
    intro _ nm b hnm
    simp only [List.nil_append]
    rw [substChars_two_ph_some props dollarChar lbraceChar (nm ++ rbraceChar :: b) nm b
      ⟨rfl, rfl⟩ (splitAtChar_append rbraceChar nm b hnm)]
  | cons c atl ih =>
    intro ha nm b hnm
    cases atl with
    | nil =>
      have hc : ¬(c = dollarChar ∧ dollarChar = lbraceChar) := fun hp => absurd hp.2 (by decide)
      rw [List.cons_append, List.nil_append]
      rw [substChars_two_noph props c dollarChar (lbraceChar :: (nm ++ rbraceChar :: b)) hc]
      have h0 := ih rfl nm b hnm
      rw [List.nil_append] at h0
      rw [h0]
      simp
    | cons c2 atl2 =>
      have hpieces : (c == dollarChar && c2 == lbraceChar) = false ∧
          hasPlaceholderOpen (c2 :: atl2) = false := by
        have : hasPlaceholderOpen (c :: c2 :: atl2) = false := ha
        rw [hasPlaceholderOpen] at this
        simp only [Bool.or_eq_false_iff] at this
        exact this
      have hc : ¬(c = dollarChar ∧ c2 = lbraceChar) := by
        intro hp
        rw [hp.1, hp.2] at hpieces
        simp at hpieces
      rw [List.cons_append, List.cons_append]
      rw [substChars_two_noph props c c2 (atl2 ++ dollarChar :: lbraceChar :: (nm ++ rbraceChar :: b)) hc]
      have h0 := ih hpieces.2 nm b hnm
      rw [List.cons_append] at h0
      rw [h0]
      simp

/-- C5: `replaceAllPlaceholders` replaces each occurrence of a
dollar-brace-name-brace placeholder whose name is present in the property
mapping with that property's value, and leaves every occurrence whose name is
absent verbatim in the output, without producing an error (the substitutor is
a total function): for any placeholder-free text `a` before the leftmost
occurrence, the occurrence is resolved by one lookup and the scan continues
over the remainder `b`, which by this same theorem handles each further
occurrence the same way. -/
theorem c5_replaces_each_occurrence (p : pom) (a nm b : List Char)
    (ha : hasPlaceholderOpen a = false) (hnm : rbraceChar ∉ nm) :
    replaceAllPlaceholders p (String.mk (a ++ dollarChar :: lbraceChar :: (nm ++ rbraceChar :: b))) =
      String.mk (a ++ ((match pomProps p (String.mk nm) with
        | some v => v.data
        | none => dollarChar :: lbraceChar :: (nm ++ [rbraceChar])) ++
        substChars (pomProps p) b)) :=
  congrArg String.mk (substChars_leftmost (pomProps p) a ha nm b hnm)

/-- POM of the C5 witness, from the repository's substitutor test: one
property `version.spring-boot_2.x = 2.x`. -/
def c5Pom : pom :=
  { Properties := { Entries := [{ Local := "version.spring-boot_2.x", Value := "2.x" }] } }

/-- C5 witness: the theorem applied to the test vector — the mapped
placeholder resolves to the property value; an unknown name stays verbatim. -/
theorem c5_witness :
    replaceAllPlaceholders c5Pom
        "org.springframework.boot:spring-boot-dependencies:$\x7bversion.spring-boot_2.x\x7d" =
      "org.springframework.boot:spring-boot-dependencies:2.x" ∧
    replaceAllPlaceholders c5Pom "prefix-$\x7bunknown\x7d-tail" =
      "prefix-$\x7bunknown\x7d-tail" := by
  constructor
  · have h := c5_replaces_each_occurrence c5Pom
      "org.springframework.boot:spring-boot-dependencies:".data
      "version.spring-boot_2.x".data [] (by decide) (by decide)
    rw [show ("org.springframework.boot:spring-boot-dependencies:$\x7bversion.spring-boot_2.x\x7d" : String) =
      String.mk ("org.springframework.boot:spring-boot-dependencies:".data ++
        dollarChar :: lbraceChar :: ("version.spring-boot_2.x".data ++ rbraceChar :: [])) from by decide]
    rw [h]
    decide
  · have h := c5_replaces_each_occurrence c5Pom "prefix-".data "unknown".data "-tail".data
      (by decide) (by decide)
    rw [show ("prefix-$\x7bunknown\x7d-tail" : String) =
      String.mk ("prefix-".data ++ dollarChar :: lbraceChar :: ("unknown".data ++
        rbraceChar :: "-tail".data)) from by decide]
    rw [h]
    decide

/-- POM of the C4 counterexample: property `a` maps to a text that itself is
a placeholder for property `b`. -/
def c4Pom : pom :=
  { Properties := { Entries :=
      [{ Local := "a", Value := "$\x7bb\x7d" }, { Local := "b", Value := "v" }] } }

/-- C4 counterexample: substitution is single-pass, so a substituted value
containing another resolvable placeholder is expanded only by a second
application — applying `replaceAllPlaceholders` twice differs from applying
it once (once gives the placeholder for `b` verbatim, twice resolves it
to `v`). -/
theorem c4_counterexample :
    replaceAllPlaceholders c4Pom (replaceAllPlaceholders c4Pom "$\x7ba\x7d") ≠
      replaceAllPlaceholders c4Pom "$\x7ba\x7d" ∧
    replaceAllPlaceholders c4Pom "$\x7ba\x7d" = "$\x7bb\x7d" ∧
    replaceAllPlaceholders c4Pom (replaceAllPlaceholders c4Pom "$\x7ba\x7d") = "v" := by
  refine ⟨by decide, by decide, by decide⟩

/-- C4 amended: applying the placeholder substitutor twice yields the same
result as applying it once PROVIDED the once-substituted result contains no
placeholder occurrence whose name is in the mapping (in particular whenever
no substituted value introduces a new resolvable placeholder); and —
unconditionally part of the original claim — a string containing no
placeholder opener is returned unchanged. -/
theorem c4_conditionally_idempotent (p : pom) (s : String) :
    (hasMappedPlaceholder (pomProps p) (replaceAllPlaceholders p s).data = false →
      replaceAllPlaceholders p (replaceAllPlaceholders p s) = replaceAllPlaceholders p s) ∧
    (hasPlaceholderOpen s.data = false → replaceAllPlaceholders p s = s) := by
  constructor
  · intro h
    exact congrArg String.mk
      (substChars_of_no_mapped (pomProps p) (substChars (pomProps p) s.data) h)
  · intro h
    exact congrArg String.mk (substChars_of_no_mapped (pomProps p) s.data
      (hasMappedPlaceholder_of_no_open (pomProps p) s.data.length s.data (Nat.le_refl _) h))

/-- POM of the C4 witness: one property whose value contains no placeholder. -/
def c4WitnessPom : pom :=
  { Properties := { Entries := [{ Local := "b", Value := "v" }] } }

/-- C4 witness: the amended theorem applied at concrete inputs — substituting
twice equals substituting once when the substituted value is placeholder
free, and a string without placeholders is returned unchanged. -/
theorem c4_amended_witness :
    replaceAllPlaceholders c4WitnessPom (replaceAllPlaceholders c4WitnessPom "x-$\x7bb\x7d-y") =
      replaceAllPlaceholders c4WitnessPom "x-$\x7bb\x7d-y" ∧
    replaceAllPlaceholders c4WitnessPom "no placeholders here" = "no placeholders here" :=
  ⟨(c4_conditionally_idempotent c4WitnessPom "x-$\x7bb\x7d-y").1 (by decide),
   (c4_conditionally_idempotent c4WitnessPom "no placeholders here").2 (by decide)⟩

/-- The import-scoped managed entry of the C1 scenario:
`spring-boot-dependencies:3.0.0`, type `pom`, scope `import`. -/
def springBootImportEntry : pomDependency :=
  { GroupId := "org.springframework.boot", ArtifactId := "spring-boot-dependencies",
    Version := "3.0.0", Scope := "import", DepType := "pom" }

/-- The un-versioned `org.slf4j:slf4j-api` dependency of the C1 scenario. -/
def slf4jUnversioned : pomDependency :=
  { GroupId := "org.slf4j", ArtifactId := "slf4j-api" }

/-- The expected resolved dependency of the C1 scenario. -/
def slf4jResolved : pomDependency :=
  { GroupId := "org.slf4j", ArtifactId := "slf4j-api", Version := "2.0.4", Scope := "compile" }

theorem importsVersion_resolves_slf4j (dm : List pomDependency)
    (hmem : springBootImportEntry ∈ dm)
    (honly : ∀ e ∈ dm, isImportEntry e = true → e = springBootImportEntry) :
    importsVersion bomRecLimit dm "org.slf4j" "slf4j-api" = some "2.0.4" := by
  induction dm with
  | nil => simp at hmem
  | cons e rest ih =>
    show List.findSome? _ (e :: rest) = _
    rw [List.findSome?_cons]
    by_cases himp : isImportEntry e = true
    · have he := honly e (List.mem_cons_self e rest) himp
      subst he
      rw [show (if isImportEntry springBootImportEntry then
          (match findDirectVersion
              (bomManagedDependencies springBootImportEntry.GroupId
                springBootImportEntry.ArtifactId springBootImportEntry.Version)
              "org.slf4j" "slf4j-api" with
           | some v => some v
           | none =>
             importsVersion 7
               (bomManagedDependencies springBootImportEntry.GroupId
                 springBootImportEntry.ArtifactId springBootImportEntry.Version)
               "org.slf4j" "slf4j-api")
          else none) = some "2.0.4" from by decide]
    · rw [show (if isImportEntry e then
          (match findDirectVersion
              (bomManagedDependencies e.GroupId e.ArtifactId e.Version)
              "org.slf4j" "slf4j-api" with
           | some v => some v
           | none =>
             importsVersion 7 (bomManagedDependencies e.GroupId e.ArtifactId e.Version)
               "org.slf4j" "slf4j-api")
          else none) = none from by rw [if_neg himp]]
      have hmem2 : springBootImportEntry ∈ rest := by
        rcases List.mem_cons.mp hmem with he | hr
        · exfalso
          apply himp
          rw [← he]
          decide
        · exact hr
      exact ih hmem2 (fun d hd himpd => honly d (List.mem_cons_of_mem e hd) himpd)

/-- C1: for every POM that declares the dependency `org.slf4j:slf4j-api`
with no version and whose dependency-management block contains the
import-scoped entry `org.springframework.boot:spring-boot-dependencies:3.0.0`
(with no direct managed pin for slf4j-api, no other import entry, and no
parent chain — the literal test scenario), `toEffectivePom` resolves that
dependency through the imported BOM to groupId `org.slf4j`, artifactId
`slf4j-api`, version `2.0.4`, scope `compile`. -/
theorem c1_bom_import_resolves_slf4j (p : pom)
    (hdirect : findDirectVersion p.dmDependencies "org.slf4j" "slf4j-api" = none)
    (himp : springBootImportEntry ∈ p.dmDependencies)
    (honly : ∀ e ∈ p.dmDependencies, isImportEntry e = true → e = springBootImportEntry)
    (hpar : p.parentsManaged = [])
    (hdep : slf4jUnversioned ∈ p.Dependencies) :
    resolveDependency p.dmDependencies p.parentsManaged slf4jUnversioned = slf4jResolved ∧
    slf4jResolved ∈ (toEffectivePom p).Dependencies := by
  have hres : resolveDependency p.dmDependencies p.parentsManaged slf4jUnversioned =
      slf4jResolved := by
    unfold resolveDependency
    have hver : resolveVersion p.dmDependencies p.parentsManaged slf4jUnversioned = "2.0.4" := by
      unfold resolveVersion
      rw [hpar]
      rw [if_neg (by decide : ¬(slf4jUnversioned.Version ≠ ""))]
      rw [show slf4jUnversioned.GroupId = "org.slf4j" from rfl,
        show slf4jUnversioned.ArtifactId = "slf4j-api" from rfl]
      rw [hdirect]
      rw [importsVersion_resolves_slf4j p.dmDependencies himp honly]
      rfl
    rw [hver]
    rfl
  refine ⟨hres, ?_⟩
  unfold toEffectivePom
  simp only [List.mem_map]
  exact ⟨slf4jUnversioned, hdep, hres⟩

/-- The POM of the C1 witness: exactly the repository test input "Test with
one dependency which version is decided by dependencyManagement". -/
def c1Pom : pom :=
  { Dependencies := [slf4jUnversioned], dmDependencies := [springBootImportEntry] }

/-- C1 witness: the theorem applied to the concrete test POM — the effective
POM pins slf4j-api at 2.0.4 with compile scope. -/
theorem c1_witness :
    resolveDependency c1Pom.dmDependencies c1Pom.parentsManaged slf4jUnversioned =
      slf4jResolved ∧
    (toEffectivePom c1Pom).Dependencies = [slf4jResolved] :=
  ⟨(c1_bom_import_resolves_slf4j c1Pom (by decide) (by decide) (by decide) (by decide)
      (by decide)).1,
   by decide⟩
